import Mathlib

/-!
# jirarest: request building, error classification and the three operations

A shallow embedding of `jira.go` and `error.go`.

* Go strings are byte sequences (`GoString`).
* The parts of the Go standard library the code calls (`encoding/json`,
  `net/url`, `net/http`, `encoding/base64`) are modelled next to the code that
  uses them; what cannot be computed from the arguments alone (URL and method
  validation, time parsing and formatting, UTF-8 coercion) is a field of `Lib`.
* A response body is seen through the scanner of `encoding/json`: it is either
  not well-formed JSON text, or a JSON value.
-/

set_option autoImplicit false

namespace Jirarest

/-! ## Go strings -/

/-- One byte of a Go string. -/
abbrev Byte := Fin 256

/-- A Go `string`: an arbitrary sequence of bytes. -/
abbrev GoString := List Byte

/-- The bytes of an ASCII string literal of the source. -/
def lit (s : String) : GoString :=
  s.data.map (fun c => Fin.ofNat c.toNat)

/-- Go `strings.HasSuffix(s, suffix)`. -/
def hasSuffix (s suffix : GoString) : Bool :=
  suffix.length ≤ s.length && s.drop (s.length - suffix.length) == suffix

/-! ## JSON values and `encoding/json` decoding -/

/-- A JSON number literal: integer syntax (an optional minus sign and digits) with
its value, or a literal with a fraction or an exponent, kept as text. -/
inductive JNumber
  | int (i : Int)
  | real (text : GoString)
deriving DecidableEq, Repr

/-- A JSON value as the decoder sees it. Object members keep their order and
may repeat a name; strings and names are already unquoted. -/
inductive JSON
  | null
  | bool (b : Bool)
  | num (n : JNumber)
  | str (s : GoString)
  | arr (xs : List JSON)
  | obj (kvs : List (GoString × JSON))

/-- The JSON kinds an `UnmarshalTypeError` names in its `Value`. -/
inductive JKind
  | null | bool | number | string | array | object
deriving DecidableEq, Repr

/-- Kind of a JSON value. -/
def JSON.kind : JSON → JKind
  | .null => .null
  | .bool _ => .bool
  | .num _ => .number
  | .str _ => .string
  | .arr _ => .array
  | .obj _ => .object

/-- The bytes of a response body, as `json.Unmarshal` scans them (`checkValid`):
not well-formed JSON text (with the offset of the syntax error), or the text of
one JSON value. -/
inductive Body
  | malformed (offset : Nat)
  | valid (v : JSON)

/-- A Go slice: `elems` is `none` for the nil slice; `spare` is what the backing
array holds past the length (the decoder stores into it when the slice is
decoded a second time). -/
structure Slice (α : Type) where
  elems : Option (List α)
  spare : List α
deriving DecidableEq, Repr

/-- The nil slice. -/
def Slice.nil {α : Type} : Slice α := ⟨none, []⟩

/-- Go `len(s)` of a slice. -/
def Slice.len {α : Type} (s : Slice α) : Nat := (s.elems.getD []).length

/-- A Go `map[string]string`: `none` for the nil map, otherwise the entries, one
per key. -/
abbrev GoMap := Option (List (GoString × GoString))

/-- Go `m[k] = v` on the entries of a map. -/
def mapSet (k v : GoString) : List (GoString × GoString) → List (GoString × GoString)
  | [] => [(k, v)]
  | e :: rest => if e.1 = k then (k, v) :: rest else e :: mapSet k v rest

/-- Go `len(m)` of a map. -/
def mapLen (m : GoMap) : Nat := (m.getD []).length

/-- The type `JiraError` of `error.go`. -/
structure JiraError where
  ErrorMessages : Slice GoString
  Errors : GoMap
deriving DecidableEq, Repr

/-- The zero value `var je JiraError`. -/
def JiraError.zero : JiraError := ⟨Slice.nil, none⟩

/-- Values of the Go interface `error` that occur: a `JiraError`, the two errors of
`encoding/json`, and errors made elsewhere (`net/http`, `net/url`, `io`, `time`),
told apart by a code. -/
inductive GoError
  | jira (je : JiraError)
  | syntaxError (offset : Nat)
  | unmarshalType (value : JKind) (goType : String)
  | other (code : Nat)
deriving DecidableEq, Repr

/-- The decoder's error state: `saved` is the first type mismatch (decoding goes on
after it), `failed` an error that stops decoding at once. -/
structure DState where
  saved : Option GoError
  failed : Option GoError
deriving DecidableEq, Repr

/-- State of a fresh decoder. -/
def DState.init : DState := ⟨none, none⟩

/-- The method `saveError` of the decoder: only the first error is kept. -/
def DState.save (st : DState) (e : GoError) : DState :=
  match st.saved with
  | none => { st with saved := some e }
  | some _ => st

/-- What `json.Unmarshal` returns at the end: the stopping error, else the saved one. -/
def DState.err (st : DState) : Option GoError :=
  match st.failed with
  | some e => some e
  | none => st.saved

/-- Storing one JSON value into a target of type `α`: the new target and state. -/
abbrev Decoder (α : Type) := JSON → α → DState → α × DState

/-- Decoding into a Go `string`. -/
def storeString : Decoder GoString
  | .null, cur, st => (cur, st)
  | .str s, _, st => (s, st)
  | v, cur, st => (cur, st.save (.unmarshalType v.kind "string"))

/-- Decoding into a Go `bool`. -/
def storeBool : Decoder Bool
  | .null, cur, st => (cur, st)
  | .bool b, _, st => (b, st)
  | v, cur, st => (cur, st.save (.unmarshalType v.kind "bool"))

/-- Decoding into a Go `int` of `bits` bits. -/
def storeInt (bits : Nat) : Decoder Int
  | .null, cur, st => (cur, st)
  | .num (.int i), cur, st =>
    if -(2 : Int) ^ (bits - 1) ≤ i ∧ i < (2 : Int) ^ (bits - 1) then (i, st)
    else (cur, st.save (.unmarshalType .number "int"))
  | v, cur, st => (cur, st.save (.unmarshalType v.kind "int"))

/-- Decoding into a pointer: `null` sets it to nil, any other value allocates a
zero target when the pointer is nil and decodes into what it points to. -/
def storePtr {α : Type} (zero : α) (dec : Decoder α) : Decoder (Option α)
  | .null, _, st => (none, st)
  | v, cur, st =>
    let r := dec v (cur.getD zero) st
    (some r.1, r.2)

/-- The element loop of array decoding: element `i` is decoded into what the backing
array holds at `i` (a zero value past it). Returns the decoded elements and the
rest of the backing array. -/
def storeElems {α : Type} (zero : α) (dec : Decoder α) :
    List JSON → List α → DState → (List α × List α) × DState
  | [], pool, st => (([], pool), st)
  | x :: xs, pool, st =>
    if st.failed.isSome then (([], pool), st)
    else
      let r := dec x (pool.headD zero) st
      let rest := storeElems zero dec xs pool.tail r.2
      ((r.1 :: rest.1.1, rest.1.2), rest.2)

/-- Decoding into a slice: `null` gives nil, `[]` a fresh empty slice, an array
one element per member, stored into the existing backing array. -/
def storeSlice {α : Type} (goType : String) (zero : α) (dec : Decoder α) : Decoder (Slice α)
  | .null, _, st => (Slice.nil, st)
  | .arr [], _, st => (⟨some [], []⟩, st)
  | .arr (x :: xs), cur, st =>
    let r := storeElems zero dec (x :: xs) (cur.elems.getD [] ++ cur.spare) st
    (⟨some r.1.1, r.1.2⟩, r.2)
  | v, cur, st => (cur, st.save (.unmarshalType v.kind goType))

/-- Decoding into a `map[string]string`: `null` gives nil; an object makes the map if
it is nil and sets one entry per member, each decoded into a fresh string. -/
def storeStringMap : Decoder GoMap
  | .null, _, st => (none, st)
  | .obj kvs, cur, st =>
    let r := kvs.foldl
      (fun (acc : List (GoString × GoString) × DState) kv =>
        if acc.2.failed.isSome then acc
        else
          let e := storeString kv.2 [] acc.2
          (mapSet kv.1 e.1 acc.1, e.2))
      (cur.getD [], st)
    (some r.1, r.2)
  | v, cur, st => (cur, st.save (.unmarshalType v.kind "map[string]string"))

/-- ASCII upper-casing of one byte. -/
def upper (b : Byte) : Byte :=
  if 97 ≤ b.val ∧ b.val ≤ 122 then Fin.ofNat (b.val - 32) else b

/-- Case-insensitive match of an object key against an ASCII field name, as the
decoder folds names: an ASCII byte matches up to case, and the two non-ASCII
runes that fold to a letter are U+017F (for `s`) and U+212A (for `k`). -/
def equalFold : GoString → GoString → Bool
  | [], [] => true
  | [], _ :: _ => false
  | _ :: _, [] => false
  | n :: ns, k :: ks =>
    if k.val < 128 then upper k == upper n && equalFold ns ks
    else if upper n == 83 && k == 197 && ks.head? == some 191 then equalFold ns (ks.drop 1)
    else if upper n == 75 && k == 226 && ks.take 2 == [132, 170] then equalFold ns (ks.drop 2)
    else false

/-- The struct field an object key selects: an exact match of the name first, else
the first field whose name matches case-insensitively. -/
def findField {α : Type} (fields : List (GoString × α)) (key : GoString) : Option α :=
  match fields.find? (fun f => f.1 == key) with
  | some f => some f.2
  | none => (fields.find? (fun f => equalFold f.1 key)).map (fun f => f.2)

/-- One member of an object decoded into a struct: nothing after a stopping error; a
member whose name selects no field is skipped; else the value is stored into the
field. -/
def storeMember {α : Type} (fields : List (GoString × Decoder α)) (acc : α × DState)
    (kv : GoString × JSON) : α × DState :=
  if acc.2.failed.isSome then acc
  else
    match findField fields kv.1 with
    | none => acc
    | some dec => dec kv.2 acc.1 acc.2

/-- Decoding into a struct with the given fields: `null` leaves it as it is; an
object stores its members in order. -/
def storeStruct {α : Type} (goType : String) (fields : List (GoString × Decoder α)) : Decoder α
  | .null, cur, st => (cur, st)
  | .obj kvs, cur, st => kvs.foldl (storeMember fields) (cur, st)
  | v, cur, st => (cur, st.save (.unmarshalType v.kind goType))

/-- A decoder for a struct field, from the decoder of the field's type. -/
def onField {α β : Type} (get : α → β) (set : α → β → α) (dec : Decoder β) : Decoder α :=
  fun v cur st =>
    let r := dec v (get cur) st
    (set cur r.1, r.2)

/-- Go `json.Unmarshal(body, &target)`: the error it returns and the target after
the call. Malformed text leaves the target untouched. -/
def unmarshal {α : Type} (dec : Decoder α) (body : Body) (target : α) : Option GoError × α :=
  match body with
  | .malformed off => (some (.syntaxError off), target)
  | .valid v =>
    let r := dec v target DState.init
    (r.2.err, r.1)

/-! ## error.go -/

/-- The fields of `JiraError` with their tags. -/
def JiraError.fields : List (GoString × Decoder JiraError) :=
    [ (lit "errorMessages",
        onField (fun je => je.ErrorMessages) (fun je x => { je with ErrorMessages := x })
          (storeSlice "[]string" [] storeString)),
      (lit "errors",
        onField (fun je => je.Errors) (fun je x => { je with Errors := x }) storeStringMap) ]

/-- The decoder of `JiraError`. -/
def decodeJiraError : Decoder JiraError :=
  storeStruct "jirarest.JiraError" JiraError.fields

/-- `toJiraError` of `error.go`. -/
def toJiraError (content : Body) : Bool × JiraError :=
  let (err, je) := unmarshal decodeJiraError content JiraError.zero
  if err ≠ none then
    (false, je)
  else if je.ErrorMessages.len = 0 ∧ mapLen je.Errors = 0 then
    (false, je)
  else
    (true, je)

/-! ## The data model of jira.go -/

/-- A Go `time.Time` (wall clock word, extended seconds, location; `loc = none` is UTC).
The zero value is January 1, year 1, 00:00:00 UTC. -/
structure Time where
  wall : Nat
  ext : Int
  loc : Option Nat
deriving DecidableEq, Repr

/-- The zero `time.Time`. -/
def Time.zero : Time := ⟨0, 0, none⟩

/-- The type `IssueType`. -/
structure IssueType where
  Self : GoString
  Id : GoString
  Description : GoString
  IconUrl : GoString
  Name : GoString
  Subtask : Bool
deriving DecidableEq, Repr

/-- The type `User`. -/
structure User where
  Self : GoString
  Name : GoString
  EmailAddress : GoString
  AvatarUrls : GoMap
  DisplayName : GoString
  Active : Bool
deriving DecidableEq, Repr

/-- The type `Project`. -/
structure Project where
  Self : GoString
  Id : GoString
  Key : GoString
  Name : GoString
  AvatarUrls : GoMap
deriving DecidableEq, Repr

/-- The type `Priority`. -/
structure Priority where
  Id : GoString
  Name : GoString
  IconUrl : GoString
  Self : GoString
deriving DecidableEq, Repr

/-- The type `IssueFields`; a pointer field is an `Option`, `none` for nil. -/
structure IssueFields where
  IssueType : Option IssueType
  Summary : GoString
  Description : GoString
  Reporter : Option User
  Assignee : Option User
  Project : Option Project
  Created : GoString
  Creator : Option User
  Labels : Slice GoString
  Priority : Option Priority
deriving DecidableEq, Repr

/-- The type `Issue`. -/
structure Issue where
  Id : GoString
  Key : GoString
  Self : GoString
  Expand : GoString
  CreatedAt : Time
  Fields : IssueFields
deriving DecidableEq, Repr

/-- The type `IssueList` (`Issues` is a slice of pointers). -/
structure IssueList where
  Expand : GoString
  StartAt : Int
  MaxReslts : Int
  Total : Int
  Issues : Slice (Option Issue)
deriving DecidableEq, Repr

/-- Zero value of `IssueType`. -/
def IssueType.zero : IssueType := ⟨[], [], [], [], [], false⟩

/-- Zero value of `User`. -/
def User.zero : User := ⟨[], [], [], none, [], false⟩

/-- Zero value of `Project`. -/
def Project.zero : Project := ⟨[], [], [], [], none⟩

/-- Zero value of `Priority`. -/
def Priority.zero : Priority := ⟨[], [], [], []⟩

/-- Zero value of `IssueFields`. -/
def IssueFields.zero : IssueFields := ⟨none, [], [], none, none, none, [], none, Slice.nil, none⟩

/-- The zero value `Issue{}`. -/
def Issue.zero : Issue := ⟨[], [], [], [], Time.zero, IssueFields.zero⟩

/-- The zero value `IssueList{}`. -/
def IssueList.zero : IssueList := ⟨[], 0, 0, 0, Slice.nil⟩

/-- What the standard library decides from more than the model's arguments.

* `intBits`: the size of `int` on the platform.
* `timeUnmarshalJSON`: `(*time.Time).UnmarshalJSON` on the text of a value, given the
  time stored so far: the new time or its error.
* `unmarshalerErrorStops`: what the decoder does with an error of `UnmarshalJSON`. True:
  decoding stops and that error is the one reported, also after a type mismatch. False:
  the error is kept like a type mismatch and the first error kept is reported. Which of
  the two holds depends on the version of `encoding/json`.
* `timeMarshalJSON`: `time.Time.MarshalJSON`: the value it writes or its error.
* `toValidUTF8`: the coercion of a string to valid UTF-8 when it is encoded.
* `newRequestErr`: the error of `http.NewRequest` for a method and a URL (an invalid
  method, a URL that does not parse), `none` when both are accepted. -/
structure Lib where
  intBits : Nat
  timeUnmarshalJSON : JSON → Time → Except GoError Time
  unmarshalerErrorStops : Bool
  timeMarshalJSON : Time → Except GoError JSON
  toValidUTF8 : GoString → GoString
  newRequestErr : GoString → GoString → Option GoError

/-- Decoding into a `time.Time`, which implements `json.Unmarshaler`: every value,
whatever its kind, is handed to `UnmarshalJSON`; its error stops decoding, or is kept
like a type mismatch (`Lib.unmarshalerErrorStops`). -/
def storeTime (lib : Lib) : Decoder Time :=
  fun v cur st =>
    match lib.timeUnmarshalJSON v cur with
    | .ok t => (t, st)
    | .error e =>
      if lib.unmarshalerErrorStops then (cur, { st with failed := some e })
      else (cur, st.save e)

/-- The decoder of `IssueType`, from its field tags. -/
def decodeIssueType : Decoder IssueType :=
  storeStruct "jirarest.IssueType"
    [ (lit "self", onField (fun x => x.Self) (fun x y => { x with Self := y }) storeString),
      (lit "id", onField (fun x => x.Id) (fun x y => { x with Id := y }) storeString),
      (lit "description",
        onField (fun x => x.Description) (fun x y => { x with Description := y }) storeString),
      (lit "iconurl", onField (fun x => x.IconUrl) (fun x y => { x with IconUrl := y }) storeString),
      (lit "name", onField (fun x => x.Name) (fun x y => { x with Name := y }) storeString),
      (lit "subtask", onField (fun x => x.Subtask) (fun x y => { x with Subtask := y }) storeBool) ]

/-- The decoder of `User`, from its field tags. -/
def decodeUser : Decoder User :=
  storeStruct "jirarest.User"
    [ (lit "self", onField (fun x => x.Self) (fun x y => { x with Self := y }) storeString),
      (lit "name", onField (fun x => x.Name) (fun x y => { x with Name := y }) storeString),
      (lit "emailaddress",
        onField (fun x => x.EmailAddress) (fun x y => { x with EmailAddress := y }) storeString),
      (lit "avatarurls",
        onField (fun x => x.AvatarUrls) (fun x y => { x with AvatarUrls := y }) storeStringMap),
      (lit "displayname",
        onField (fun x => x.DisplayName) (fun x y => { x with DisplayName := y }) storeString),
      (lit "active", onField (fun x => x.Active) (fun x y => { x with Active := y }) storeBool) ]

/-- The decoder of `Project`, from its field tags. -/
def decodeProject : Decoder Project :=
  storeStruct "jirarest.Project"
    [ (lit "self", onField (fun x => x.Self) (fun x y => { x with Self := y }) storeString),
      (lit "id", onField (fun x => x.Id) (fun x y => { x with Id := y }) storeString),
      (lit "key", onField (fun x => x.Key) (fun x y => { x with Key := y }) storeString),
      (lit "name", onField (fun x => x.Name) (fun x y => { x with Name := y }) storeString),
      (lit "avatarurls",
        onField (fun x => x.AvatarUrls) (fun x y => { x with AvatarUrls := y }) storeStringMap) ]

/-- The decoder of `Priority`, from its field tags. -/
def decodePriority : Decoder Priority :=
  storeStruct "jirarest.Priority"
    [ (lit "id", onField (fun x => x.Id) (fun x y => { x with Id := y }) storeString),
      (lit "name", onField (fun x => x.Name) (fun x y => { x with Name := y }) storeString),
      (lit "iconurl", onField (fun x => x.IconUrl) (fun x y => { x with IconUrl := y }) storeString),
      (lit "self", onField (fun x => x.Self) (fun x y => { x with Self := y }) storeString) ]

/-- The decoder of `IssueFields`, from its field tags. -/
def decodeIssueFields : Decoder IssueFields :=
  storeStruct "jirarest.IssueFields"
    [ (lit "issuetype",
        onField (fun x => x.IssueType) (fun x y => { x with IssueType := y })
          (storePtr IssueType.zero decodeIssueType)),
      (lit "summary", onField (fun x => x.Summary) (fun x y => { x with Summary := y }) storeString),
      (lit "description",
        onField (fun x => x.Description) (fun x y => { x with Description := y }) storeString),
      (lit "reporter",
        onField (fun x => x.Reporter) (fun x y => { x with Reporter := y })
          (storePtr User.zero decodeUser)),
      (lit "assignee",
        onField (fun x => x.Assignee) (fun x y => { x with Assignee := y })
          (storePtr User.zero decodeUser)),
      (lit "project",
        onField (fun x => x.Project) (fun x y => { x with Project := y })
          (storePtr Project.zero decodeProject)),
      (lit "created", onField (fun x => x.Created) (fun x y => { x with Created := y }) storeString),
      (lit "creator",
        onField (fun x => x.Creator) (fun x y => { x with Creator := y })
          (storePtr User.zero decodeUser)),
      (lit "labels",
        onField (fun x => x.Labels) (fun x y => { x with Labels := y })
          (storeSlice "[]string" [] storeString)),
      (lit "priority",
        onField (fun x => x.Priority) (fun x y => { x with Priority := y })
          (storePtr Priority.zero decodePriority)) ]

/-- The fields of `Issue` with their tags. -/
def Issue.fields (lib : Lib) : List (GoString × Decoder Issue) :=
    [ (lit "id", onField (fun x => x.Id) (fun x y => { x with Id := y }) storeString),
      (lit "key", onField (fun x => x.Key) (fun x y => { x with Key := y }) storeString),
      (lit "self", onField (fun x => x.Self) (fun x y => { x with Self := y }) storeString),
      (lit "expand", onField (fun x => x.Expand) (fun x y => { x with Expand := y }) storeString),
      (lit "createdat",
        onField (fun x => x.CreatedAt) (fun x y => { x with CreatedAt := y }) (storeTime lib)),
      (lit "fields",
        onField (fun x => x.Fields) (fun x y => { x with Fields := y }) decodeIssueFields) ]

/-- The decoder of `Issue`. -/
def decodeIssue (lib : Lib) : Decoder Issue :=
  storeStruct "jirarest.Issue" (Issue.fields lib)

/-- The fields of `IssueList` with their tags. -/
def IssueList.fields (lib : Lib) : List (GoString × Decoder IssueList) :=
    [ (lit "expand", onField (fun x => x.Expand) (fun x y => { x with Expand := y }) storeString),
      (lit "startat",
        onField (fun x => x.StartAt) (fun x y => { x with StartAt := y }) (storeInt lib.intBits)),
      (lit "maxresults",
        onField (fun x => x.MaxReslts) (fun x y => { x with MaxReslts := y })
          (storeInt lib.intBits)),
      (lit "total",
        onField (fun x => x.Total) (fun x y => { x with Total := y }) (storeInt lib.intBits)),
      (lit "issues",
        onField (fun x => x.Issues) (fun x y => { x with Issues := y })
          (storeSlice "[]*jirarest.Issue" none (storePtr Issue.zero (decodeIssue lib)))) ]

/-- The decoder of `IssueList`. -/
def decodeIssueList (lib : Lib) : Decoder IssueList :=
  storeStruct "jirarest.IssueList" (IssueList.fields lib)

/-! ## `encoding/json` encoding of an `Issue` -/

/-- Byte-wise order of Go strings, the order map keys are written in. -/
def bytesLt : GoString → GoString → Bool
  | [], [] => false
  | [], _ :: _ => true
  | _ :: _, [] => false
  | a :: as, b :: bs => a < b || (a == b && bytesLt as bs)

/-- Insertion of a map entry into entries sorted by key. -/
def insertEntry (e : GoString × GoString) : List (GoString × GoString) → List (GoString × GoString)
  | [] => [e]
  | f :: rest => if bytesLt f.1 e.1 then f :: insertEntry e rest else e :: f :: rest

/-- The entries of a map sorted by key. -/
def sortEntries (m : List (GoString × GoString)) : List (GoString × GoString) :=
  m.foldr insertEntry []

/-- A `string` field tagged `omitempty`: left out when its length is 0. -/
def encString (lib : Lib) (name : String) (s : GoString) : List (GoString × JSON) :=
  if s.length = 0 then [] else [(lit name, .str (lib.toValidUTF8 s))]

/-- A `bool` field tagged `omitempty`: left out when false. -/
def encBool (name : String) (b : Bool) : List (GoString × JSON) :=
  if b = false then [] else [(lit name, .bool true)]

/-- A `map[string]string` field tagged `omitempty`: left out when its length is 0,
else an object with the keys in sorted order. -/
def encMap (lib : Lib) (name : String) (m : GoMap) : List (GoString × JSON) :=
  if mapLen m = 0 then []
  else [(lit name,
    .obj ((sortEntries (m.getD [])).map (fun e => (lib.toValidUTF8 e.1, .str (lib.toValidUTF8 e.2)))))]

/-- A `[]string` field tagged `omitempty`: left out when its length is 0. -/
def encStrings (lib : Lib) (name : String) (xs : Slice GoString) : List (GoString × JSON) :=
  if xs.len = 0 then []
  else [(lit name, .arr ((xs.elems.getD []).map (fun x => .str (lib.toValidUTF8 x))))]

/-- A pointer field tagged `omitempty`: left out when nil. -/
def encPtr {α : Type} (name : String) (enc : α → JSON) (x : Option α) : List (GoString × JSON) :=
  match x with
  | none => []
  | some v => [(lit name, enc v)]

/-- Encoding of an `IssueType`. -/
def encodeIssueType (lib : Lib) (x : IssueType) : JSON :=
  .obj (encString lib "self" x.Self ++ encString lib "id" x.Id
    ++ encString lib "description" x.Description ++ encString lib "iconurl" x.IconUrl
    ++ encString lib "name" x.Name ++ encBool "subtask" x.Subtask)

/-- Encoding of a `User`. -/
def encodeUser (lib : Lib) (x : User) : JSON :=
  .obj (encString lib "self" x.Self ++ encString lib "name" x.Name
    ++ encString lib "emailaddress" x.EmailAddress ++ encMap lib "avatarurls" x.AvatarUrls
    ++ encString lib "displayname" x.DisplayName ++ encBool "active" x.Active)

/-- Encoding of a `Project`. -/
def encodeProject (lib : Lib) (x : Project) : JSON :=
  .obj (encString lib "self" x.Self ++ encString lib "id" x.Id ++ encString lib "key" x.Key
    ++ encString lib "name" x.Name ++ encMap lib "avatarurls" x.AvatarUrls)

/-- Encoding of a `Priority`. -/
def encodePriority (lib : Lib) (x : Priority) : JSON :=
  .obj (encString lib "id" x.Id ++ encString lib "name" x.Name
    ++ encString lib "iconurl" x.IconUrl ++ encString lib "self" x.Self)

/-- Encoding of an `IssueFields`. -/
def encodeIssueFields (lib : Lib) (x : IssueFields) : JSON :=
  .obj (encPtr "issuetype" (encodeIssueType lib) x.IssueType
    ++ encString lib "summary" x.Summary ++ encString lib "description" x.Description
    ++ encPtr "reporter" (encodeUser lib) x.Reporter
    ++ encPtr "assignee" (encodeUser lib) x.Assignee
    ++ encPtr "project" (encodeProject lib) x.Project
    ++ encString lib "created" x.Created
    ++ encPtr "creator" (encodeUser lib) x.Creator
    ++ encStrings lib "labels" x.Labels
    ++ encPtr "priority" (encodePriority lib) x.Priority)

/-- Go `json.Marshal(issue)` for an `Issue`. The `omitempty` option leaves out a field
that is false, 0, a nil pointer, or an array, slice, map or string of length zero; a
struct value (`CreatedAt`, `Fields`) is none of these and is always written. The one
error is that of `time.Time.MarshalJSON`. -/
def marshalIssue (lib : Lib) (x : Issue) : Except GoError JSON :=
  match lib.timeMarshalJSON x.CreatedAt with
  | .error e => .error e
  | .ok t =>
    .ok (.obj (encString lib "id" x.Id ++ encString lib "key" x.Key
      ++ encString lib "self" x.Self ++ encString lib "expand" x.Expand
      ++ [(lit "createdat", t)] ++ [(lit "fields", encodeIssueFields lib x.Fields)]))

/-! ## `net/url`: query escaping -/

/-- The function `shouldEscape(c, encodeQueryComponent)` of `net/url`: only the
unreserved characters (letters, digits, `-`, `_`, `.`, `~`) are left alone. -/
def shouldEscape (c : Byte) : Bool :=
  if (97 ≤ c.val ∧ c.val ≤ 122) ∨ (65 ≤ c.val ∧ c.val ≤ 90) ∨ (48 ≤ c.val ∧ c.val ≤ 57) then false
  else if c = 45 ∨ c = 95 ∨ c = 46 ∨ c = 126 then false
  else true

/-- The table `upperhex` of `net/url`. -/
def upperhex (n : Nat) : Byte := (lit "0123456789ABCDEF").getD n 0

/-- What `escape` writes for one byte in mode `encodeQueryComponent`. -/
def escapeByte (c : Byte) : GoString :=
  if c = 32 then [43]
  else if shouldEscape c then [37, upperhex (c.val / 16), upperhex (c.val % 16)]
  else [c]

/-- Go `url.QueryEscape`. -/
def QueryEscape : GoString → GoString
  | [] => []
  | c :: rest => escapeByte c ++ QueryEscape rest

/-- The function `ishex` of `net/url`. -/
def ishex (c : Byte) : Bool :=
  (48 ≤ c.val ∧ c.val ≤ 57) ∨ (97 ≤ c.val ∧ c.val ≤ 102) ∨ (65 ≤ c.val ∧ c.val ≤ 70)

/-- The function `unhex` of `net/url`. -/
def unhex (c : Byte) : Nat :=
  if 48 ≤ c.val ∧ c.val ≤ 57 then c.val - 48
  else if 97 ≤ c.val ∧ c.val ≤ 102 then c.val - 97 + 10
  else if 65 ≤ c.val ∧ c.val ≤ 70 then c.val - 65 + 10
  else 0

/-- Go `url.QueryUnescape`: `none` for its `EscapeError` (a `%` that is not followed
by two hexadecimal digits). -/
def QueryUnescape : GoString → Option GoString
  | [] => some []
  | [c] => if c = 37 then none else if c = 43 then some [32] else some [c]
  | [c, d] =>
    if c = 37 then none
    else (QueryUnescape [d]).map (fun r => (if c = 43 then 32 else c) :: r)
  | c :: h1 :: h2 :: rest =>
    if c = 37 then
      if ishex h1 && ishex h2 then
        (QueryUnescape rest).map (fun r => Fin.ofNat (unhex h1 * 16 + unhex h2) :: r)
      else none
    else (QueryUnescape (h1 :: h2 :: rest)).map (fun r => (if c = 43 then 32 else c) :: r)

/-! ## `encoding/base64` and `net/http` requests -/

/-- The alphabet of `base64.StdEncoding`. -/
def encodeStd (n : Nat) : Byte :=
  (lit "ABCDEFGHIJKLMNOPQRSTUVWXYZabcdefghijklmnopqrstuvwxyz0123456789+/").getD n 0

/-- Go `base64.StdEncoding.EncodeToString`: three bytes give four characters, a
remainder of one or two bytes is padded with `=`. -/
def base64Encode : GoString → GoString
  | [] => []
  | [a] => [encodeStd (a.val / 4), encodeStd (a.val % 4 * 16), 61, 61]
  | [a, b] =>
    [encodeStd (a.val / 4), encodeStd (a.val % 4 * 16 + b.val / 16), encodeStd (b.val % 16 * 4), 61]
  | a :: b :: c :: rest =>
    [encodeStd (a.val / 4), encodeStd (a.val % 4 * 16 + b.val / 16),
      encodeStd (b.val % 16 * 4 + c.val / 64), encodeStd (c.val % 64)] ++ base64Encode rest

/-- A Go `http.Header`: one list of values per key. -/
abbrev Header := List (GoString × List GoString)

/-- Go `Header.Set(key, value)` for a key in canonical form: the key's values become
the single value. -/
def headerSet (key value : GoString) : Header → Header
  | [] => [(key, [value])]
  | e :: rest => if e.1 = key then (key, [value]) :: rest else e :: headerSet key value rest

/-- The values stored under a key, `none` when the key is absent. -/
def headerValues (key : GoString) (h : Header) : Option (List GoString) :=
  (h.find? (fun e => e.1 == key)).map (fun e => e.2)

/-- The fields of an `http.Request` the code sets: the method, the request target as
passed to `http.NewRequest`, the header and the body (`none` for a nil `io.Reader`,
else the JSON value the buffer holds). -/
structure Request where
  Method : GoString
  URL : GoString
  Header : Header
  Body : Option JSON

/-- Go `http.NewRequest(method, url, body)`: its error, or a request with an empty
header; an empty method means GET. -/
def newRequest (lib : Lib) (method url : GoString) (body : Option JSON) : Except GoError Request :=
  match lib.newRequestErr method url with
  | some e => .error e
  | none => .ok ⟨if method.length = 0 then lit "GET" else method, url, [], body⟩

/-- Go `Request.SetBasicAuth(username, password)`. -/
def Request.SetBasicAuth (r : Request) (username password : GoString) : Request :=
  let credentials := lit "Basic " ++ base64Encode (username ++ lit ":" ++ password)
  { r with Header := headerSet (lit "Authorization") credentials r.Header }

/-- What `ioutil.ReadAll(response.Body)` gives for a response: the bytes read and the
read error, if any. -/
structure Response where
  body : Body
  readErr : Option GoError

/-- The two results of `http.Client.Do`. With a nil error the response is non-nil;
with an error the response is nil, or (when `CheckRedirect` fails) non-nil. -/
inductive DoResult
  | ok (response : Response)
  | fail (response : Option Response) (err : GoError)

/-- The first result of `Do`; `none` is the nil pointer. -/
def DoResult.response : DoResult → Option Response
  | .ok response => some response
  | .fail response _ => response

/-- The second result of `Do`; `none` is the nil error. -/
def DoResult.err : DoResult → Option GoError
  | .ok _ => none
  | .fail _ err => some err

/-- The type `Client`; the field `client` is the transport, given by its method `Do`. -/
structure Client where
  Uri : GoString
  User : GoString
  Password : GoString
  client : Request → DoResult

/-- How a call ends: it returns a value and an error (`none` is the nil error), or it
panics. -/
inductive Outcome (α : Type)
  | returns (value : α) (err : Option GoError)
  | panics

/-! ## jira.go -/

/-- `Client.buildUri`: the format string depends on whether `Uri` ends in a slash;
both verbs are `%s`, so `fmt.Sprintf` is concatenation. -/
def buildUri (jc : Client) (path : GoString) : GoString :=
  if !hasSuffix jc.Uri (lit "/") then
    jc.Uri ++ lit "/rest/api/2/" ++ path
  else
    jc.Uri ++ lit "rest/api/2/" ++ path


/-- `Client.buildRequest`. -/
def buildRequest (lib : Lib) (jc : Client) (method path : GoString) (body : Option JSON) :
    Except GoError Request :=
  match newRequest lib method (buildUri jc path) body with
  | .error err => .error err
  | .ok request =>
    let request := request.SetBasicAuth jc.User jc.Password
    if body.isSome then
      let header := headerSet (lit "Content-Type") (lit "application/json") request.Header
      .ok { request with Header := header }
    else
      .ok request

/-- `Client.GetIssue`. -/
def GetIssue (lib : Lib) (jc : Client) (key : GoString) : Outcome Issue :=
  match buildRequest lib jc (lit "GET") (lit "issue/" ++ key) none with
  | .error err => .returns Issue.zero (some err)
  | .ok request =>
    let d := jc.client request
    match d.err with
    | some err => .returns Issue.zero (some err)
    | none =>
      match d.response with
      | none => .panics
      | some response =>
        let body := response.body
        let err := response.readErr
        let (ok, jErr) := toJiraError body
        if ok then .returns Issue.zero (some (.jira jErr))
        else
          match err with
          | some err => .returns Issue.zero (some err)
          | none =>
            match unmarshal (decodeIssue lib) body Issue.zero with
            | (some err, _) => .returns Issue.zero (some err)
            | (none, issue) => .returns issue none

/-- `Client.SearchIssue`. -/
def SearchIssue (lib : Lib) (jc : Client) (jql : GoString) : Outcome IssueList :=
  match buildRequest lib jc (lit "GET") (lit "search?jql=" ++ QueryEscape jql) none with
  | .error err => .returns IssueList.zero (some err)
  | .ok request =>
    let d := jc.client request
    match d.err with
    | some err => .returns IssueList.zero (some err)
    | none =>
      match d.response with
      | none => .panics
      | some response =>
        let body := response.body
        let err := response.readErr
        let (ok, jErr) := toJiraError body
        if ok then .returns IssueList.zero (some (.jira jErr))
        else
          match err with
          | some err => .returns IssueList.zero (some err)
          | none =>
            match unmarshal (decodeIssueList lib) body IssueList.zero with
            | (some err, _) => .returns IssueList.zero (some err)
            | (none, issues) => .returns issues none

/-- `Client.CreateIssue`. The error of `Do` is overwritten by that of `ReadAll`
without being tested, and `response.Body` is read whatever `Do` returned. -/
def CreateIssue (lib : Lib) (jc : Client) (issue : Issue) : Outcome Issue :=
  match marshalIssue lib issue with
  | .error err => .returns Issue.zero (some err)
  | .ok data =>
    match buildRequest lib jc (lit "POST") (lit "issue") (some data) with
    | .error err => .returns Issue.zero (some err)
    | .ok request =>
      let d := jc.client request
      match d.response with
      | none => .panics
      | some response =>
        let body := response.body
        let err := response.readErr
        let (ok, jErr) := toJiraError body
        if ok then .returns Issue.zero (some (.jira jErr))
        else
          match err with
          | some err => .returns Issue.zero (some err)
          | none =>
            match unmarshal (decodeIssue lib) body Issue.zero with
            | (some err, _) => .returns Issue.zero (some err)
            | (none, newIssue) => .returns newIssue none

/-! ## The response interpreter

The three operations end with the same steps once a response is at hand;
`GetIssue_eq`, `SearchIssue_eq` and `CreateIssue_eq` below show that each operation
is its request and transport steps followed by `interpret`. -/

/-- Read the body, classify it with `toJiraError`, then test the read error, then
decode the success shape. -/
def interpret {α : Type} (dec : Decoder α) (zero : α) (response : Response) : Outcome α :=
  let body := response.body
  let err := response.readErr
  let (ok, jErr) := toJiraError body
  if ok then .returns zero (some (.jira jErr))
  else
    match err with
    | some e => .returns zero (some e)
    | none =>
      match unmarshal dec body zero with
      | (some e, _) => .returns zero (some e)
      | (none, v) => .returns v none

/-- The relative path `SearchIssue` asks for. -/
def searchPath (jql : GoString) : GoString :=
  lit "search?jql=" ++ QueryEscape jql

/-! ## Concrete inputs -/

/-- A standard library for the examples: 64-bit `int`; a time decodes from `null`
(no change) and from a string, and is written as the zero time's text; strings are
taken to be valid UTF-8; every method and URL is accepted. -/
def exampleLib : Lib where
  intBits := 64
  timeUnmarshalJSON := fun v cur =>
    match v with
    | .null => .ok cur
    | .str _ => .ok ⟨1, 0, none⟩
    | _ => .error (.other 1)
  unmarshalerErrorStops := true
  timeMarshalJSON := fun _ => .ok (.str (lit "0001-01-01T00:00:00Z"))
  toValidUTF8 := fun s => s
  newRequestErr := fun _ _ => none

/-- A client whose transport answers every request with the given result. -/
def clientAnswering (d : DoResult) : Client :=
  ⟨lit "https://jira.example.org", lit "user", lit "secret", fun _ => d⟩

/-- A client whose transport answers every request with the given body, read in full. -/
def clientReturning (b : Body) : Client :=
  clientAnswering (.ok ⟨b, none⟩)

/-- The body `{"errorMessages":["Issue Does Not Exist"],"key":"PROJECT-1"}`. -/
def errorBody : Body :=
  .valid (.obj [(lit "errorMessages", .arr [.str (lit "Issue Does Not Exist")]),
    (lit "key", .str (lit "PROJECT-1"))])

/-- The body `{"total":5}`. -/
def totalBody : Body := .valid (.obj [(lit "total", .num (.int 5))])

/-- The body `{}`. -/
def emptyObjectBody : Body := .valid (.obj [])

/-- The body `{"id":"10000","key":"PROJECT-1","self":"https://jira.example.org/10000"}`. -/
def issueBody : Body :=
  .valid (.obj [(lit "id", .str (lit "10000")), (lit "key", .str (lit "PROJECT-1")),
    (lit "self", .str (lit "https://jira.example.org/10000"))])

/-- The `Issue` with only `Fields.Summary` set, to "Test issue". -/
def summaryIssue : Issue :=
  { Issue.zero with Fields := { IssueFields.zero with Summary := lit "Test issue" } }

/-- What `json.Marshal` writes for `summaryIssue` with `exampleLib`:
`{"createdat":"0001-01-01T00:00:00Z","fields":{"summary":"Test issue"}}`. -/
def summaryIssueData : JSON :=
  .obj [(lit "createdat", .str (lit "0001-01-01T00:00:00Z")),
    (lit "fields", .obj [(lit "summary", .str (lit "Test issue"))])]

/-- The request `buildRequest` makes for `POST issue` with the body `{}` on the
example client (`user:secret` is `dXNlcjpzZWNyZXQ=` in base64). -/
def examplePost : Request :=
  ⟨lit "POST", lit "https://jira.example.org/rest/api/2/issue",
    [(lit "Authorization", [lit "Basic dXNlcjpzZWNyZXQ="]),
      (lit "Content-Type", [lit "application/json"])],
    some (.obj [])⟩

/-! ## Theorems -/

theorem lit_slash : lit "/" = [47] := by decide

theorem hasSuffix_append_slash (u : GoString) : hasSuffix (u ++ lit "/") (lit "/") = true := by
  simp [hasSuffix, lit_slash]

/-- C5: for a base URI `u` that does not end in a slash, `buildUri` gives the same
string on a client with `Uri = u` and on one with `Uri = u + "/"`, and that string is
`u + "/rest/api/2/" + p`. -/
theorem buildUri_trailing_separator (jc jc2 : Client) (u p : GoString)
    (hu : hasSuffix u (lit "/") = false) (h1 : jc.Uri = u) (h2 : jc2.Uri = u ++ lit "/") :
    buildUri jc p = buildUri jc2 p ∧ buildUri jc p = u ++ lit "/rest/api/2/" ++ p := by
  have e1 : buildUri jc p = u ++ lit "/rest/api/2/" ++ p := by
    simp [buildUri, h1, hu]
  have e2 : buildUri jc2 p = u ++ lit "/rest/api/2/" ++ p := by
    have hs : lit "/rest/api/2/" = lit "/" ++ lit "rest/api/2/" := by decide
    simp [buildUri, h2, hasSuffix_append_slash, hs]
  exact ⟨e1.trans e2.symm, e1⟩

theorem buildUri_trailing_separator_witness :
    hasSuffix (lit "http://h") (lit "/") = false ∧
    buildUri ⟨lit "http://h", [], [], fun _ => .ok ⟨emptyObjectBody, none⟩⟩ (lit "issue/A-1")
      = buildUri ⟨lit "http://h/", [], [], fun _ => .ok ⟨emptyObjectBody, none⟩⟩ (lit "issue/A-1") ∧
    buildUri ⟨lit "http://h", [], [], fun _ => .ok ⟨emptyObjectBody, none⟩⟩ (lit "issue/A-1")
      = lit "http://h/rest/api/2/issue/A-1" :=
  ⟨by decide,
    (buildUri_trailing_separator ⟨lit "http://h", [], [], fun _ => .ok ⟨emptyObjectBody, none⟩⟩
      ⟨lit "http://h/", [], [], fun _ => .ok ⟨emptyObjectBody, none⟩⟩ (lit "http://h")
      (lit "issue/A-1") (by decide) rfl (by decide)).1,
    by decide⟩

theorem toJiraError_snd (b : Body) :
    (toJiraError b).2 = (unmarshal decodeJiraError b JiraError.zero).2 := by
  unfold toJiraError
  generalize unmarshal decodeJiraError b JiraError.zero = r
  obtain ⟨err, je⟩ := r
  by_cases h : err = none
  · by_cases h2 : je.ErrorMessages.len = 0 ∧ mapLen je.Errors = 0
    · simp [h, h2]
    · simp [h, h2]
  · simp [h]

theorem toJiraError_fst (b : Body) :
    (toJiraError b).1 = true ↔
      (unmarshal decodeJiraError b JiraError.zero).1 = none ∧
        ((unmarshal decodeJiraError b JiraError.zero).2.ErrorMessages.len ≠ 0 ∨
          mapLen (unmarshal decodeJiraError b JiraError.zero).2.Errors ≠ 0) := by
  unfold toJiraError
  generalize unmarshal decodeJiraError b JiraError.zero = r
  obtain ⟨err, je⟩ := r
  by_cases h : err = none
  · by_cases h2 : je.ErrorMessages.len = 0 ∧ mapLen je.Errors = 0
    · simp [h, h2]
    · simp [h, h2]
      tauto
  · simp [h]

/-- C1: `toJiraError` reports an error exactly when the body decodes into a `JiraError`
without error and the decoded message list or the decoded field-error map is not
empty; the `JiraError` it returns is the decoded one; a body that is not well-formed
JSON is not an error. -/
theorem toJiraError_spec (b : Body) :
    ((toJiraError b).1 = true ↔
      (unmarshal decodeJiraError b JiraError.zero).1 = none ∧
        ((unmarshal decodeJiraError b JiraError.zero).2.ErrorMessages.len ≠ 0 ∨
          mapLen (unmarshal decodeJiraError b JiraError.zero).2.Errors ≠ 0)) ∧
    (toJiraError b).2 = (unmarshal decodeJiraError b JiraError.zero).2 ∧
    (∀ off, toJiraError (.malformed off) = (false, JiraError.zero)) :=
  ⟨toJiraError_fst b, toJiraError_snd b, fun _ => rfl⟩

theorem interpret_eq {α : Type} (dec : Decoder α) (zero : α) (response : Response) :
    interpret dec zero response =
      if (toJiraError response.body).1 = true then
        .returns zero (some (.jira (toJiraError response.body).2))
      else
        match response.readErr with
        | some e => .returns zero (some e)
        | none =>
          match (unmarshal dec response.body zero).1 with
          | some e => .returns zero (some e)
          | none => .returns (unmarshal dec response.body zero).2 none := by
  unfold interpret
  dsimp only
  generalize toJiraError response.body = r
  obtain ⟨ok, je⟩ := r
  cases ok
  · cases response.readErr with
    | some e => rfl
    | none =>
      simp only [Bool.false_eq_true, if_false]
      generalize unmarshal dec response.body zero = u
      obtain ⟨e, v⟩ := u
      cases e <;> rfl
  · rfl

theorem GetIssue_eq (lib : Lib) (jc : Client) (key : GoString) :
    GetIssue lib jc key =
      match buildRequest lib jc (lit "GET") (lit "issue/" ++ key) none with
      | .error err => .returns Issue.zero (some err)
      | .ok request =>
        match (jc.client request).err with
        | some err => .returns Issue.zero (some err)
        | none =>
          match (jc.client request).response with
          | none => .panics
          | some response => interpret (decodeIssue lib) Issue.zero response := by
  unfold GetIssue
  cases buildRequest lib jc (lit "GET") (lit "issue/" ++ key) none with
  | error e => rfl
  | ok request =>
    dsimp only
    cases (jc.client request).err with
    | some e => rfl
    | none =>
      cases (jc.client request).response with
      | none => rfl
      | some response =>
        simp only [interpret_eq]
        generalize toJiraError response.body = r
        obtain ⟨ok, je⟩ := r
        cases ok
        · cases response.readErr with
          | some e => rfl
          | none =>
            simp only [Bool.false_eq_true, if_false]
            generalize unmarshal (decodeIssue lib) response.body Issue.zero = u
            obtain ⟨e, v⟩ := u
            cases e <;> rfl
        · rfl

theorem SearchIssue_eq (lib : Lib) (jc : Client) (jql : GoString) :
    SearchIssue lib jc jql =
      match buildRequest lib jc (lit "GET") (searchPath jql) none with
      | .error err => .returns IssueList.zero (some err)
      | .ok request =>
        match (jc.client request).err with
        | some err => .returns IssueList.zero (some err)
        | none =>
          match (jc.client request).response with
          | none => .panics
          | some response => interpret (decodeIssueList lib) IssueList.zero response := by
  unfold SearchIssue searchPath
  cases buildRequest lib jc (lit "GET") (lit "search?jql=" ++ QueryEscape jql) none with
  | error e => rfl
  | ok request =>
    dsimp only
    cases (jc.client request).err with
    | some e => rfl
    | none =>
      cases (jc.client request).response with
      | none => rfl
      | some response =>
        simp only [interpret_eq]
        generalize toJiraError response.body = r
        obtain ⟨ok, je⟩ := r
        cases ok
        · cases response.readErr with
          | some e => rfl
          | none =>
            simp only [Bool.false_eq_true, if_false]
            generalize unmarshal (decodeIssueList lib) response.body IssueList.zero = u
            obtain ⟨e, v⟩ := u
            cases e <;> rfl
        · rfl

theorem CreateIssue_eq (lib : Lib) (jc : Client) (issue : Issue) :
    CreateIssue lib jc issue =
      match marshalIssue lib issue with
      | .error err => .returns Issue.zero (some err)
      | .ok data =>
        match buildRequest lib jc (lit "POST") (lit "issue") (some data) with
        | .error err => .returns Issue.zero (some err)
        | .ok request =>
          match (jc.client request).response with
          | none => .panics
          | some response => interpret (decodeIssue lib) Issue.zero response := by
  unfold CreateIssue
  cases marshalIssue lib issue with
  | error e => rfl
  | ok data =>
    dsimp only
    cases buildRequest lib jc (lit "POST") (lit "issue") (some data) with
    | error e => rfl
    | ok request =>
      dsimp only
      cases (jc.client request).response with
      | none => rfl
      | some response =>
        simp only [interpret_eq]
        generalize toJiraError response.body = r
        obtain ⟨ok, je⟩ := r
        cases ok
        · cases response.readErr with
          | some e => rfl
          | none =>
            simp only [Bool.false_eq_true, if_false]
            generalize unmarshal (decodeIssue lib) response.body Issue.zero = u
            obtain ⟨e, v⟩ := u
            cases e <;> rfl
        · rfl

theorem interpret_of_jiraError {α : Type} (dec : Decoder α) (zero : α) (response : Response)
    (h : (toJiraError response.body).1 = true) :
    interpret dec zero response = .returns zero (some (.jira (toJiraError response.body).2)) := by
  simp [interpret, h]

theorem interpret_decode_error {α : Type} (dec : Decoder α) (zero : α) (body : Body)
    (e : GoError) (h : (toJiraError body).1 = false) (he : (unmarshal dec body zero).1 = some e) :
    interpret dec zero ⟨body, none⟩ = .returns zero (some e) := by
  simp only [interpret, h]
  generalize unmarshal dec body zero = r at he
  obtain ⟨err, x⟩ := r
  simp at he
  simp [he]

theorem interpret_decode_ok {α : Type} (dec : Decoder α) (zero : α) (body : Body)
    (h : (toJiraError body).1 = false) (he : (unmarshal dec body zero).1 = none) :
    interpret dec zero ⟨body, none⟩ = .returns (unmarshal dec body zero).2 none := by
  simp only [interpret, h]
  generalize unmarshal dec body zero = r at he
  obtain ⟨err, x⟩ := r
  simp at he
  simp [he]

/-- C2: when the body of the response decodes to a `JiraError` with content, each of
`GetIssue`, `SearchIssue` and `CreateIssue` returns that decoded `JiraError` as its
error and the zero value as its result, whatever the read error and whatever the
body would decode to as an `Issue` or `IssueList`. -/
theorem operations_return_jiraError (lib : Lib) (jc : Client) (response : Response)
    (hdec : (unmarshal decodeJiraError response.body JiraError.zero).1 = none)
    (hcontent : (unmarshal decodeJiraError response.body JiraError.zero).2.ErrorMessages.len ≠ 0 ∨
      mapLen (unmarshal decodeJiraError response.body JiraError.zero).2.Errors ≠ 0) :
    (∀ key request,
      buildRequest lib jc (lit "GET") (lit "issue/" ++ key) none = .ok request →
      jc.client request = .ok response →
      GetIssue lib jc key = .returns Issue.zero
        (some (.jira (unmarshal decodeJiraError response.body JiraError.zero).2))) ∧
    (∀ jql request,
      buildRequest lib jc (lit "GET") (lit "search?jql=" ++ QueryEscape jql) none = .ok request →
      jc.client request = .ok response →
      SearchIssue lib jc jql = .returns IssueList.zero
        (some (.jira (unmarshal decodeJiraError response.body JiraError.zero).2))) ∧
    (∀ issue data request,
      marshalIssue lib issue = .ok data →
      buildRequest lib jc (lit "POST") (lit "issue") (some data) = .ok request →
      (jc.client request).response = some response →
      CreateIssue lib jc issue = .returns Issue.zero
        (some (.jira (unmarshal decodeJiraError response.body JiraError.zero).2))) := by
  have hje := toJiraError_snd response.body
  have hJ : (toJiraError response.body).1 = true :=
    (toJiraError_fst response.body).mpr ⟨hdec, hcontent⟩
  refine ⟨?_, ?_, ?_⟩
  · intro key request hb hd
    simp only [GetIssue_eq, hb, hd, DoResult.err, DoResult.response]
    rw [interpret_of_jiraError _ _ _ hJ, hje]
  · intro jql request hb hd
    simp only [SearchIssue_eq, searchPath, hb, hd, DoResult.err, DoResult.response]
    rw [interpret_of_jiraError _ _ _ hJ, hje]
  · intro issue data request hm hb hd
    simp only [CreateIssue_eq, hm, hb, hd]
    rw [interpret_of_jiraError _ _ _ hJ, hje]


theorem operations_return_jiraError_witness :
    (unmarshal decodeJiraError errorBody JiraError.zero).1 = none ∧
    (unmarshal decodeJiraError errorBody JiraError.zero).2.ErrorMessages.len ≠ 0 ∧
    (unmarshal (decodeIssue exampleLib) errorBody Issue.zero).1 = none ∧
    (unmarshal (decodeIssue exampleLib) errorBody Issue.zero).2.Key = lit "PROJECT-1" ∧
    GetIssue exampleLib (clientReturning errorBody) (lit "PROJECT-1") =
      .returns Issue.zero (some (.jira ⟨⟨some [lit "Issue Does Not Exist"], []⟩, none⟩)) ∧
    SearchIssue exampleLib (clientReturning errorBody) (lit "key = PROJECT-1") =
      .returns IssueList.zero (some (.jira ⟨⟨some [lit "Issue Does Not Exist"], []⟩, none⟩)) ∧
    CreateIssue exampleLib (clientReturning errorBody) Issue.zero =
      .returns Issue.zero (some (.jira ⟨⟨some [lit "Issue Does Not Exist"], []⟩, none⟩)) :=
  have h := operations_return_jiraError exampleLib (clientReturning errorBody) ⟨errorBody, none⟩
    (by decide) (Or.inl (by decide))
  ⟨by decide, by decide, by decide, by decide, h.1 (lit "PROJECT-1") _ rfl rfl, h.2.1 (lit "key = PROJECT-1") _ rfl rfl,
    h.2.2 Issue.zero _ _ rfl rfl rfl⟩

theorem buildRequest_ok (lib : Lib) (jc : Client) (method path : GoString) (body : Option JSON)
    (hnew : ∀ m u, lib.newRequestErr m u = none) :
    ∃ request, buildRequest lib jc method path body = .ok request := by
  unfold buildRequest newRequest
  rw [hnew]
  by_cases hb : body.isSome <;> simp [hb]

/-- C3: with a transport that fails with error `e`, `GetIssue` and `SearchIssue` return
`e` unchanged and the zero value; `CreateIssue` does not test the error: it panics
on the nil response, or goes on to read the response when there is one. -/
theorem transport_failure_outcomes (lib : Lib) (jc : Client) (response : Option Response)
    (e : GoError) (hnew : ∀ m u, lib.newRequestErr m u = none)
    (hdo : ∀ request, jc.client request = .fail response e) :
    (∀ key, GetIssue lib jc key = .returns Issue.zero (some e)) ∧
    (∀ jql, SearchIssue lib jc jql = .returns IssueList.zero (some e)) ∧
    (∀ issue data, marshalIssue lib issue = .ok data →
      CreateIssue lib jc issue =
        match response with
        | none => .panics
        | some r => interpret (decodeIssue lib) Issue.zero r) := by
  refine ⟨?_, ?_, ?_⟩
  · intro key
    obtain ⟨request, hb⟩ := buildRequest_ok lib jc (lit "GET") (lit "issue/" ++ key) none hnew
    simp [GetIssue_eq, hb, hdo, DoResult.err]
  · intro jql
    obtain ⟨request, hb⟩ := buildRequest_ok lib jc (lit "GET") (searchPath jql) none hnew
    simp [SearchIssue_eq, hb, hdo, DoResult.err]
  · intro issue data hm
    obtain ⟨request, hb⟩ := buildRequest_ok lib jc (lit "POST") (lit "issue") (some data) hnew
    simp only [CreateIssue_eq, hm, hb, hdo, DoResult.response]
    cases response <;> rfl

theorem transport_failure_outcomes_witness :
    GetIssue exampleLib (clientAnswering (.fail none (.other 7))) (lit "PROJECT-1") =
      .returns Issue.zero (some (.other 7)) ∧
    SearchIssue exampleLib (clientAnswering (.fail none (.other 7))) (lit "key = PROJECT-1") =
      .returns IssueList.zero (some (.other 7)) ∧
    CreateIssue exampleLib (clientAnswering (.fail none (.other 7))) Issue.zero = .panics :=
  have h := transport_failure_outcomes exampleLib (clientAnswering (.fail none (.other 7))) none
    (.other 7) (fun _ _ => rfl) (fun _ => rfl)
  ⟨h.1 _, h.2.1 _, h.2.2 Issue.zero _ rfl⟩

theorem storeStruct_mismatch {α : Type} (goType : String) (fields : List (GoString × Decoder α))
    (v : JSON) (cur : α) (st : DState)
    (hk : v.kind = .array ∨ v.kind = .string ∨ v.kind = .number ∨ v.kind = .bool) :
    storeStruct goType fields v cur st = (cur, st.save (.unmarshalType v.kind goType)) := by
  cases v <;> simp [JSON.kind] at hk <;> rfl

theorem storeStruct_unknown {α : Type} (goType : String) (fields : List (GoString × Decoder α))
    (kvs : List (GoString × JSON)) (cur : α) (st : DState)
    (hk : ∀ kv ∈ kvs, findField fields kv.1 = none) :
    storeStruct goType fields (.obj kvs) cur st = (cur, st) := by
  simp only [storeStruct]
  induction kvs with
  | nil => rfl
  | cons kv rest ih =>
    have h1 : findField fields kv.1 = none := hk kv (List.mem_cons_self _ _)
    have h2 : ∀ x ∈ rest, findField fields x.1 = none :=
      fun x hx => hk x (List.mem_cons_of_mem _ hx)
    have h3 : storeMember fields (cur, st) kv = (cur, st) := by
      simp [storeMember, h1]
    simp only [List.foldl_cons, h3]
    exact ih h2

theorem unmarshal_mismatch {α : Type} (goType : String) (fields : List (GoString × Decoder α))
    (v : JSON) (zero : α)
    (hk : v.kind = .array ∨ v.kind = .string ∨ v.kind = .number ∨ v.kind = .bool) :
    unmarshal (storeStruct goType fields) (.valid v) zero
      = (some (.unmarshalType v.kind goType), zero) := by
  simp [unmarshal, storeStruct_mismatch goType fields v zero DState.init hk]
  rfl

theorem unmarshal_unknown {α : Type} (goType : String) (fields : List (GoString × Decoder α))
    (v : JSON) (zero : α)
    (hk : v = .null ∨ ∃ kvs, v = .obj kvs ∧ ∀ kv ∈ kvs, findField fields kv.1 = none) :
    unmarshal (storeStruct goType fields) (.valid v) zero = (none, zero) := by
  rcases hk with rfl | ⟨kvs, rfl, hk⟩
  · rfl
  · simp [unmarshal, storeStruct_unknown goType fields kvs zero DState.init hk]
    rfl

theorem interpret_struct_cases {α : Type} (goType : String)
    (fields : List (GoString × Decoder α)) (zero : α) (v : JSON)
    (hJ : (toJiraError (.valid v)).1 = false) :
    ((v.kind = .array ∨ v.kind = .string ∨ v.kind = .number ∨ v.kind = .bool) →
      interpret (storeStruct goType fields) zero ⟨.valid v, none⟩ =
        .returns zero (some (.unmarshalType v.kind goType))) ∧
    ((v = .null ∨ ∃ kvs, v = .obj kvs ∧ ∀ kv ∈ kvs, findField fields kv.1 = none) →
      interpret (storeStruct goType fields) zero ⟨.valid v, none⟩ = .returns zero none) ∧
    (∀ e, (unmarshal (storeStruct goType fields) (.valid v) zero).1 = some e →
      interpret (storeStruct goType fields) zero ⟨.valid v, none⟩ = .returns zero (some e)) ∧
    ((unmarshal (storeStruct goType fields) (.valid v) zero).1 = none →
      interpret (storeStruct goType fields) zero ⟨.valid v, none⟩ =
        .returns (unmarshal (storeStruct goType fields) (.valid v) zero).2 none) := by
  refine ⟨?_, ?_, ?_, ?_⟩
  · intro hk
    have e1 := unmarshal_mismatch goType fields v zero hk
    exact interpret_decode_error _ zero (.valid v) _ hJ (by rw [e1])
  · intro hk
    have e1 := unmarshal_unknown goType fields v zero hk
    have r1 := interpret_decode_ok (storeStruct goType fields) zero (.valid v) hJ (by rw [e1])
    rw [e1] at r1
    exact r1
  · intro e he
    exact interpret_decode_error _ zero (.valid v) e hJ he
  · intro he
    exact interpret_decode_ok _ zero (.valid v) hJ he

/-- C4, amended: take a body that is valid JSON and not a `JiraError` with content, read
in full as the answer to the request of the operation. A top-level array, string,
number or boolean makes the operation return an `UnmarshalTypeError` and the zero
value. `null`, and an object none of whose member names selects a field of the
operation's success shape (`Issue` for `GetIssue` and `CreateIssue`, `IssueList` for
`SearchIssue`; such as `{}`), make it return a nil error and the zero value. In
general the operation returns the zero value with the error `json.Unmarshal` of the
success shape reports, and what was decoded with a nil error when it reports none. -/
theorem success_decode_cases (lib : Lib) (jc : Client) (v : JSON)
    (hJ : (toJiraError (.valid v)).1 = false) :
    (∀ key request,
      buildRequest lib jc (lit "GET") (lit "issue/" ++ key) none = .ok request →
      jc.client request = .ok ⟨.valid v, none⟩ →
      ((v.kind = .array ∨ v.kind = .string ∨ v.kind = .number ∨ v.kind = .bool) →
        GetIssue lib jc key =
          .returns Issue.zero (some (.unmarshalType v.kind "jirarest.Issue"))) ∧
      ((v = .null ∨ ∃ kvs, v = .obj kvs ∧ ∀ kv ∈ kvs, findField (Issue.fields lib) kv.1 = none) →
        GetIssue lib jc key = .returns Issue.zero none) ∧
      (∀ e, (unmarshal (decodeIssue lib) (.valid v) Issue.zero).1 = some e →
        GetIssue lib jc key = .returns Issue.zero (some e)) ∧
      ((unmarshal (decodeIssue lib) (.valid v) Issue.zero).1 = none →
        GetIssue lib jc key =
          .returns (unmarshal (decodeIssue lib) (.valid v) Issue.zero).2 none)) ∧
    (∀ jql request,
      buildRequest lib jc (lit "GET") (lit "search?jql=" ++ QueryEscape jql) none = .ok request →
      jc.client request = .ok ⟨.valid v, none⟩ →
      ((v.kind = .array ∨ v.kind = .string ∨ v.kind = .number ∨ v.kind = .bool) →
        SearchIssue lib jc jql =
          .returns IssueList.zero (some (.unmarshalType v.kind "jirarest.IssueList"))) ∧
      ((v = .null ∨
          ∃ kvs, v = .obj kvs ∧ ∀ kv ∈ kvs, findField (IssueList.fields lib) kv.1 = none) →
        SearchIssue lib jc jql = .returns IssueList.zero none) ∧
      (∀ e, (unmarshal (decodeIssueList lib) (.valid v) IssueList.zero).1 = some e →
        SearchIssue lib jc jql = .returns IssueList.zero (some e)) ∧
      ((unmarshal (decodeIssueList lib) (.valid v) IssueList.zero).1 = none →
        SearchIssue lib jc jql =
          .returns (unmarshal (decodeIssueList lib) (.valid v) IssueList.zero).2 none)) ∧
    (∀ issue data request,
      marshalIssue lib issue = .ok data →
      buildRequest lib jc (lit "POST") (lit "issue") (some data) = .ok request →
      (jc.client request).response = some ⟨.valid v, none⟩ →
      ((v.kind = .array ∨ v.kind = .string ∨ v.kind = .number ∨ v.kind = .bool) →
        CreateIssue lib jc issue =
          .returns Issue.zero (some (.unmarshalType v.kind "jirarest.Issue"))) ∧
      ((v = .null ∨ ∃ kvs, v = .obj kvs ∧ ∀ kv ∈ kvs, findField (Issue.fields lib) kv.1 = none) →
        CreateIssue lib jc issue = .returns Issue.zero none) ∧
      (∀ e, (unmarshal (decodeIssue lib) (.valid v) Issue.zero).1 = some e →
        CreateIssue lib jc issue = .returns Issue.zero (some e)) ∧
      ((unmarshal (decodeIssue lib) (.valid v) Issue.zero).1 = none →
        CreateIssue lib jc issue =
          .returns (unmarshal (decodeIssue lib) (.valid v) Issue.zero).2 none)) := by
  refine ⟨?_, ?_, ?_⟩
  · intro key request hb hd
    have hG : GetIssue lib jc key =
        interpret (decodeIssue lib) Issue.zero ⟨.valid v, none⟩ := by
      simp only [GetIssue_eq, hb, hd, DoResult.err, DoResult.response]
    rw [hG]
    exact interpret_struct_cases "jirarest.Issue" (Issue.fields lib) Issue.zero v hJ
  · intro jql request hb hd
    have hS : SearchIssue lib jc jql =
        interpret (decodeIssueList lib) IssueList.zero ⟨.valid v, none⟩ := by
      simp only [SearchIssue_eq, searchPath, hb, hd, DoResult.err, DoResult.response]
    rw [hS]
    exact interpret_struct_cases "jirarest.IssueList" (IssueList.fields lib) IssueList.zero v hJ
  · intro issue data request hm hb hd
    have hC : CreateIssue lib jc issue =
        interpret (decodeIssue lib) Issue.zero ⟨.valid v, none⟩ := by
      simp only [CreateIssue_eq, hm, hb, hd]
    rw [hC]
    exact interpret_struct_cases "jirarest.Issue" (Issue.fields lib) Issue.zero v hJ

theorem success_decode_cases_witness :
    (GetIssue exampleLib (clientReturning (.valid (.arr []))) (lit "PROJECT-1") =
        .returns Issue.zero (some (.unmarshalType .array "jirarest.Issue")) ∧
      SearchIssue exampleLib (clientReturning (.valid (.arr []))) (lit "key = PROJECT-1") =
        .returns IssueList.zero (some (.unmarshalType .array "jirarest.IssueList")) ∧
      CreateIssue exampleLib (clientReturning (.valid (.arr []))) Issue.zero =
        .returns Issue.zero (some (.unmarshalType .array "jirarest.Issue"))) ∧
    (GetIssue exampleLib (clientReturning totalBody) (lit "PROJECT-1") =
        .returns Issue.zero none ∧
      SearchIssue exampleLib (clientReturning totalBody) (lit "key = PROJECT-1") =
        .returns { IssueList.zero with Total := 5 } none ∧
      CreateIssue exampleLib (clientReturning totalBody) Issue.zero =
        .returns Issue.zero none) ∧
    GetIssue exampleLib (clientReturning (.valid (.obj [(lit "key", .num (.int 5))])))
        (lit "PROJECT-1") = .returns Issue.zero (some (.unmarshalType .number "string")) :=
  have hA := success_decode_cases exampleLib (clientReturning (.valid (.arr []))) (.arr [])
    (by decide)
  have hB := success_decode_cases exampleLib (clientReturning totalBody)
    (.obj [(lit "total", .num (.int 5))]) (by decide)
  have hC := success_decode_cases exampleLib
    (clientReturning (.valid (.obj [(lit "key", .num (.int 5))])))
    (.obj [(lit "key", .num (.int 5))]) (by decide)
  have hmem : ∀ kv ∈ [(lit "total", JSON.num (.int 5))],
      findField (Issue.fields exampleLib) kv.1 = none := by
    intro kv hkv
    simp only [List.mem_singleton] at hkv
    subst hkv
    rfl
  ⟨⟨(hA.1 (lit "PROJECT-1") _ rfl rfl).1 (Or.inl rfl),
      (hA.2.1 (lit "key = PROJECT-1") _ rfl rfl).1 (Or.inl rfl),
      (hA.2.2 Issue.zero _ _ rfl rfl rfl).1 (Or.inl rfl)⟩,
    ⟨(hB.1 (lit "PROJECT-1") _ rfl rfl).2.1 (Or.inr ⟨_, rfl, hmem⟩),
      (hB.2.1 (lit "key = PROJECT-1") _ rfl rfl).2.2.2 (by decide),
      (hB.2.2 Issue.zero _ _ rfl rfl rfl).2.1 (Or.inr ⟨_, rfl, hmem⟩)⟩,
    (hC.1 (lit "PROJECT-1") _ rfl rfl).2.2.1 _ (by decide)⟩

/-- C4, counterexample: the body `{}` is valid JSON, is no `JiraError` with content and
holds nothing of an `Issue` or `IssueList`, and each operation returns a nil error
with the zero value instead of a decode error. -/
theorem empty_object_decodes_as_success :
    (toJiraError emptyObjectBody).1 = false ∧
    GetIssue exampleLib (clientReturning emptyObjectBody) (lit "PROJECT-1") =
      .returns Issue.zero none ∧
    SearchIssue exampleLib (clientReturning emptyObjectBody) (lit "key = PROJECT-1") =
      .returns IssueList.zero none ∧
    CreateIssue exampleLib (clientReturning emptyObjectBody) Issue.zero =
      .returns Issue.zero none :=
  ⟨by decide, rfl, rfl, rfl⟩

/-- C9: at the failing input. With a transport that fails and gives no response,
`CreateIssue` of an issue that marshals without error panics: the call produces
neither a payload nor an error. -/
theorem createIssue_produces_nothing_on_transport_failure :
    marshalIssue exampleLib summaryIssue = .ok summaryIssueData ∧
    CreateIssue exampleLib (clientAnswering (.fail none (.other 3))) summaryIssue = .panics ∧
    ∀ value err,
      CreateIssue exampleLib (clientAnswering (.fail none (.other 3))) summaryIssue
        ≠ .returns value err := by
  refine ⟨rfl, rfl, ?_⟩
  intro value err h
  have h2 : CreateIssue exampleLib (clientAnswering (.fail none (.other 3))) summaryIssue
      = .panics := rfl
  rw [h2] at h
  cases h

/-- C7: at the failing input. Whatever the library, the zero `Issue` does not marshal
to the empty object: when the time is written, the members `createdat` and `fields`
are there; and an `Issue` with only `Fields.Summary` set has the top-level member
`createdat` next to `fields`. -/
theorem zero_issue_is_not_empty_object (lib : Lib) :
    marshalIssue lib Issue.zero ≠ .ok (.obj []) ∧
    (∀ t, lib.timeMarshalJSON Time.zero = .ok t →
      marshalIssue lib Issue.zero = .ok (.obj [(lit "createdat", t), (lit "fields", .obj [])])) ∧
    marshalIssue exampleLib summaryIssue = .ok (.obj [
      (lit "createdat", .str (lit "0001-01-01T00:00:00Z")),
      (lit "fields", .obj [(lit "summary", .str (lit "Test issue"))])]) := by
  refine ⟨?_, ?_, rfl⟩
  · intro h
    have hz : Issue.zero.CreatedAt = Time.zero := rfl
    simp only [marshalIssue, hz] at h
    cases ht : lib.timeMarshalJSON Time.zero with
    | error e => simp [ht] at h
    | ok t => simp [ht, encString, Issue.zero] at h
  · intro t ht
    have : Issue.zero.CreatedAt = Time.zero := rfl
    simp [marshalIssue, this, ht, encString, Issue.zero, encodeIssueFields, IssueFields.zero,
      encPtr, encStrings, Slice.len, Slice.nil]

theorem headerValues_cons_same (key : GoString) (vs : List GoString) (h : Header) :
    headerValues key ((key, vs) :: h) = some vs := by
  simp [headerValues, List.find?]

theorem headerValues_cons_other (key : GoString) (e : GoString × List GoString) (h : Header)
    (hne : e.1 ≠ key) : headerValues key (e :: h) = headerValues key h := by
  have hb : (e.1 == key) = false := by simpa using hne
  simp [headerValues, List.find?, hb]

theorem headerValues_set_same (key value : GoString) (h : Header) :
    headerValues key (headerSet key value h) = some [value] := by
  induction h with
  | nil => exact headerValues_cons_same key [value] []
  | cons e rest ih =>
    unfold headerSet
    by_cases he : e.1 = key
    · rw [if_pos he]
      exact headerValues_cons_same key [value] rest
    · rw [if_neg he, headerValues_cons_other key e _ he]
      exact ih

theorem headerValues_set_other (key key2 value : GoString) (h : Header) (hne : key2 ≠ key) :
    headerValues key (headerSet key2 value h) = headerValues key h := by
  induction h with
  | nil => exact headerValues_cons_other key (key2, [value]) [] hne
  | cons e rest ih =>
    unfold headerSet
    by_cases he : e.1 = key2
    · rw [if_pos he, headerValues_cons_other key (key2, [value]) rest hne,
        headerValues_cons_other key e rest (by rw [he]; exact hne)]
    · rw [if_neg he]
      by_cases hk : e.1 = key
      · obtain ⟨k, vs⟩ := e
        simp only at hk
        subst hk
        rw [headerValues_cons_same, headerValues_cons_same]
      · rw [headerValues_cons_other key e _ hk, headerValues_cons_other key e _ hk]
        exact ih

theorem buildRequest_url (lib : Lib) (jc : Client) (method path : GoString) (body : Option JSON)
    (request : Request) (h : buildRequest lib jc method path body = .ok request) :
    request.URL = buildUri jc path := by
  unfold buildRequest newRequest at h
  cases hn : lib.newRequestErr method (buildUri jc path) with
  | some e => simp [hn] at h
  | none =>
    simp only [hn, Request.SetBasicAuth] at h
    cases body with
    | none =>
      simp at h
      subst h
      rfl
    | some d =>
      simp at h
      subst h
      rfl

/-- C10: a request that `buildRequest` returns targets `buildUri(path)`, carries the
body it was given, has the `Authorization` header of HTTP basic authentication for
the client's `User` and `Password`, and has `Content-Type: application/json`
exactly when a body was supplied; with no body the header is absent. -/
theorem buildRequest_spec (lib : Lib) (jc : Client) (method path : GoString) (body : Option JSON)
    (request : Request) (h : buildRequest lib jc method path body = .ok request) :
    request.URL = buildUri jc path ∧
    request.Body = body ∧
    headerValues (lit "Authorization") request.Header =
      some [lit "Basic " ++ base64Encode (jc.User ++ lit ":" ++ jc.Password)] ∧
    (headerValues (lit "Content-Type") request.Header = some [lit "application/json"] ↔
      body ≠ none) ∧
    (body = none → headerValues (lit "Content-Type") request.Header = none) := by
  unfold buildRequest newRequest at h
  have hne : lit "Content-Type" ≠ lit "Authorization" := by decide
  cases hn : lib.newRequestErr method (buildUri jc path) with
  | some e => simp [hn] at h
  | none =>
    simp only [hn, Request.SetBasicAuth] at h
    cases body with
    | none =>
      simp at h
      subst h
      have hne2 : lit "Authorization" ≠ lit "Content-Type" := by decide
      simp [headerSet, headerValues_cons_same, headerValues_cons_other, hne2]
      simp [headerValues]
    | some d =>
      simp at h
      subst h
      simp [headerValues_set_same, headerValues_set_other _ _ _ _ hne]


theorem buildRequest_spec_witness :
    buildRequest exampleLib (clientReturning emptyObjectBody) (lit "POST") (lit "issue")
      (some (.obj [])) = .ok examplePost ∧
    examplePost.URL = lit "https://jira.example.org/rest/api/2/issue" ∧
    headerValues (lit "Authorization") examplePost.Header = some [lit "Basic dXNlcjpzZWNyZXQ="] ∧
    headerValues (lit "Content-Type") examplePost.Header = some [lit "application/json"] :=
  have h := buildRequest_spec exampleLib (clientReturning emptyObjectBody) (lit "POST")
    (lit "issue") (some (.obj [])) examplePost rfl
  ⟨rfl, h.1, h.2.2.1, h.2.2.2.1.mpr (by simp)⟩

theorem upperhex_table : ∀ n : Fin 16,
    shouldEscape (upperhex n.val) = false ∧ ishex (upperhex n.val) = true ∧
      unhex (upperhex n.val) = n.val := by
  decide

theorem upperhex_facts (n : Nat) (hn : n < 16) :
    shouldEscape (upperhex n) = false ∧ ishex (upperhex n) = true ∧ unhex (upperhex n) = n :=
  upperhex_table ⟨n, hn⟩

theorem unreserved_plain (c : Byte) (h : shouldEscape c = false) : c ≠ 37 ∧ c ≠ 43 ∧ c ≠ 32 := by
  refine ⟨?_, ?_, ?_⟩ <;>
  · rintro rfl
    revert h
    decide

theorem escapeByte_alphabet (c b : Byte) (hb : b ∈ escapeByte c) :
    shouldEscape b = false ∨ b = 37 ∨ b = 43 := by
  unfold escapeByte at hb
  by_cases h32 : c = 32
  · simp [h32] at hb
    exact Or.inr (Or.inr hb)
  · by_cases hs : shouldEscape c = true
    · simp only [h32, hs, if_true, if_false, List.mem_cons, List.mem_singleton,
        List.mem_nil_iff, or_false] at hb
      have hlt : c.val / 16 < 16 := by have := c.isLt; omega
      have hlt2 : c.val % 16 < 16 := by omega
      rcases hb with hb | hb | hb
      · exact Or.inr (Or.inl hb)
      · exact Or.inl (hb ▸ (upperhex_facts _ hlt).1)
      · exact Or.inl (hb ▸ (upperhex_facts _ hlt2).1)
    · have hs2 : shouldEscape c = false := by simpa using hs
      simp [h32, hs2] at hb
      exact Or.inl (hb ▸ hs2)

theorem upperhex_unhex (c : Byte) :
    ishex (upperhex (c.val / 16)) = true ∧ ishex (upperhex (c.val % 16)) = true ∧
    (Fin.ofNat (unhex (upperhex (c.val / 16)) * 16 + unhex (upperhex (c.val % 16))) : Byte) = c := by
  have hlt : c.val / 16 < 16 := by have := c.isLt; omega
  have hlt2 : c.val % 16 < 16 := by omega
  refine ⟨(upperhex_facts _ hlt).2.1, (upperhex_facts _ hlt2).2.1, ?_⟩
  rw [(upperhex_facts _ hlt).2.2, (upperhex_facts _ hlt2).2.2]
  apply Fin.ext
  have := c.isLt
  simp only [Fin.ofNat, Fin.val_mk]
  omega

theorem QueryUnescape_cons_plain (c : Byte) (rest : GoString) (hc : c ≠ 37) :
    QueryUnescape (c :: rest) =
      (QueryUnescape rest).map (fun r => (if c = 43 then 32 else c) :: r) := by
  cases rest with
  | nil => by_cases h : c = 43 <;> simp [QueryUnescape, hc, h]
  | cons d r =>
    cases r with
    | nil => simp [QueryUnescape, hc]
    | cons e r2 => simp [QueryUnescape, hc]

theorem QueryUnescape_percent (h1 h2 : Byte) (rest : GoString)
    (hh1 : ishex h1 = true) (hh2 : ishex h2 = true) :
    QueryUnescape (37 :: h1 :: h2 :: rest) =
      (QueryUnescape rest).map (fun r => Fin.ofNat (unhex h1 * 16 + unhex h2) :: r) := by
  simp [QueryUnescape, hh1, hh2]

theorem QueryUnescape_escapeByte (c : Byte) (rest : GoString) :
    QueryUnescape (escapeByte c ++ rest) = (QueryUnescape rest).map (fun r => c :: r) := by
  unfold escapeByte
  by_cases h32 : c = 32
  · subst h32
    simp [QueryUnescape_cons_plain]
  · by_cases hs : shouldEscape c = true
    · obtain ⟨a, b, e⟩ := upperhex_unhex c
      simp only [h32, hs, if_true, if_false, List.cons_append, List.nil_append]
      rw [QueryUnescape_percent _ _ _ a b, e]
    · have hs2 : shouldEscape c = false := by simpa using hs
      obtain ⟨n37, n43, _⟩ := unreserved_plain c hs2
      simp only [h32, hs2, if_false, Bool.false_eq_true, List.cons_append, List.nil_append]
      rw [QueryUnescape_cons_plain _ _ n37]
      simp [n43]

theorem QueryUnescape_QueryEscape (q : GoString) : QueryUnescape (QueryEscape q) = some q := by
  induction q with
  | nil => rfl
  | cons c rest ih =>
    simp only [QueryEscape]
    rw [QueryUnescape_escapeByte, ih]
    rfl

theorem QueryEscape_alphabet (q : GoString) :
    ∀ b ∈ QueryEscape q, shouldEscape b = false ∨ b = 37 ∨ b = 43 := by
  induction q with
  | nil => simp [QueryEscape]
  | cons c rest ih =>
    intro b hb
    simp only [QueryEscape, List.mem_append] at hb
    rcases hb with hb | hb
    · exact escapeByte_alphabet c b hb
    · exact ih b hb


set_option maxRecDepth 4000 in
theorem reserved_not_in_alphabet :
    ∀ b ∈ ([38, 61, 63, 35, 47, 32, 36, 44, 58, 59, 64] : List Byte),
      ¬(shouldEscape b = false ∨ b = 37 ∨ b = 43) := by
  decide

/-- C8: the request of `SearchIssue` goes to the relative path `search?jql=` followed by
`url.QueryEscape` of the query, and the result is read from the answer to that
request. An unreserved byte is kept, a space becomes `+`, every other byte becomes `%`
and two upper-case hexadecimal digits; so the escaped query holds only unreserved
bytes, `%` and `+` (none of `& = ? # / $ , : ; @` or a space), and `url.QueryUnescape`
gives back the query. -/
theorem searchIssue_query_escaping (lib : Lib) (jc : Client) (q : GoString) :
    (∀ request,
      buildRequest lib jc (lit "GET") (lit "search?jql=" ++ QueryEscape q) none = .ok request →
      request.URL = buildUri jc (lit "search?jql=" ++ QueryEscape q) ∧
      ∀ response, jc.client request = .ok response →
        SearchIssue lib jc q = interpret (decodeIssueList lib) IssueList.zero response) ∧
    (∀ c : Byte, shouldEscape c = false → escapeByte c = [c]) ∧
    (∀ c : Byte, shouldEscape c = true →
      escapeByte c = if c = 32 then [43] else [37, upperhex (c.val / 16), upperhex (c.val % 16)]) ∧
    (∀ b ∈ QueryEscape q, shouldEscape b = false ∨ b = 37 ∨ b = 43) ∧
    (∀ b ∈ ([38, 61, 63, 35, 47, 32, 36, 44, 58, 59, 64] : List Byte), b ∉ QueryEscape q) ∧
    QueryUnescape (QueryEscape q) = some q := by
  refine ⟨?_, ?_, ?_, QueryEscape_alphabet q, ?_, QueryUnescape_QueryEscape q⟩
  · intro request hb
    refine ⟨buildRequest_url lib jc _ _ _ request hb, ?_⟩
    intro response hd
    simp [SearchIssue_eq, searchPath, hb, hd, DoResult.err, DoResult.response]
  · intro c hc
    have h32 := (unreserved_plain c hc).2.2
    simp [escapeByte, h32, hc]
  · intro c hc
    simp [escapeByte, hc]
  · intro b hb hmem
    exact reserved_not_in_alphabet b hb (QueryEscape_alphabet q b hmem)

theorem searchIssue_query_escaping_witness :
    QueryEscape (lit "key = A&b/c") = lit "key+%3D+A%26b%2Fc" ∧
    QueryUnescape (lit "key+%3D+A%26b%2Fc") = some (lit "key = A&b/c") :=
  ⟨by decide, (by decide : QueryEscape (lit "key = A&b/c") = lit "key+%3D+A%26b%2Fc") ▸
    (searchIssue_query_escaping exampleLib (clientReturning emptyObjectBody)
      (lit "key = A&b/c")).2.2.2.2.2⟩

theorem foldl_storeMember_failed {α : Type} (fields : List (GoString × Decoder α))
    (kvs : List (GoString × JSON)) (acc : α × DState) (h : acc.2.failed.isSome = true) :
    kvs.foldl (storeMember fields) acc = acc := by
  induction kvs with
  | nil => rfl
  | cons kv rest ih =>
    have h1 : storeMember fields acc kv = acc := by simp [storeMember, h]
    simp only [List.foldl_cons, h1]
    exact ih

theorem findField_some {α : Type} (fields : List (GoString × α)) (key : GoString) (x : α)
    (h : findField fields key = some x) :
    ∃ f ∈ fields, f.2 = x ∧ (f.1 = key ∨ equalFold f.1 key = true) := by
  unfold findField at h
  cases h1 : fields.find? (fun f => f.1 == key) with
  | some f =>
    simp only [h1, Option.some.injEq] at h
    have hp : (f.1 == key) = true :=
      @List.find?_some _ (fun g : GoString × α => g.1 == key) f fields h1
    exact ⟨f, List.mem_of_find?_eq_some h1, h, Or.inl (by simpa using hp)⟩
  | none =>
    simp only [h1, Option.map_eq_some'] at h
    obtain ⟨f, hf, hx⟩ := h
    have hp : equalFold f.1 key = true :=
      @List.find?_some _ (fun g : GoString × α => equalFold g.1 key) f fields hf
    exact ⟨f, List.mem_of_find?_eq_some hf, hx, Or.inr hp⟩

theorem storeMember_frame {α β : Type} (fields : List (GoString × Decoder α)) (get : α → β)
    (name : GoString) (acc : α × DState) (kv : GoString × JSON)
    (hfields : ∀ f ∈ fields, f.1 = name ∨ ∀ v cur st, get (f.2 v cur st).1 = get cur)
    (hself : equalFold name name = true)
    (h : equalFold name kv.1 = false) :
    get (storeMember fields acc kv).1 = get acc.1 := by
  unfold storeMember
  split
  · rfl
  · cases hf : findField fields kv.1 with
    | none => rfl
    | some dec =>
      obtain ⟨f, hmem, hdec, hname⟩ := findField_some fields kv.1 dec hf
      rcases hfields f hmem with hn | hframe
      · exfalso
        rw [hn] at hname
        rcases hname with hname | hname
        · rw [← hname, hself] at h
          cases h
        · rw [hname] at h
          cases h
      · simp only
        rw [← hdec]
        exact hframe _ _ _

theorem Issue_fields_frame_key (lib : Lib) :
    ∀ f ∈ Issue.fields lib, f.1 = lit "key" ∨ ∀ v cur st, (f.2 v cur st).1.Key = cur.Key := by
  intro f hf
  simp only [Issue.fields, List.mem_cons, List.mem_singleton, List.mem_nil_iff, or_false] at hf
  rcases hf with rfl | rfl | rfl | rfl | rfl | rfl
  · exact Or.inr (fun _ _ _ => rfl)
  · exact Or.inl rfl
  all_goals exact Or.inr (fun _ _ _ => rfl)

theorem Issue_fields_frame_id (lib : Lib) :
    ∀ f ∈ Issue.fields lib, f.1 = lit "id" ∨ ∀ v cur st, (f.2 v cur st).1.Id = cur.Id := by
  intro f hf
  simp only [Issue.fields, List.mem_cons, List.mem_singleton, List.mem_nil_iff, or_false] at hf
  rcases hf with rfl | rfl | rfl | rfl | rfl | rfl
  · exact Or.inl rfl
  all_goals exact Or.inr (fun _ _ _ => rfl)

theorem Issue_fields_frame_self (lib : Lib) :
    ∀ f ∈ Issue.fields lib, f.1 = lit "self" ∨ ∀ v cur st, (f.2 v cur st).1.Self = cur.Self := by
  intro f hf
  simp only [Issue.fields, List.mem_cons, List.mem_singleton, List.mem_nil_iff, or_false] at hf
  rcases hf with rfl | rfl | rfl | rfl | rfl | rfl
  · exact Or.inr (fun _ _ _ => rfl)
  · exact Or.inr (fun _ _ _ => rfl)
  · exact Or.inl rfl
  all_goals exact Or.inr (fun _ _ _ => rfl)

theorem foldl_storeMember_frame {α β : Type} (fields : List (GoString × Decoder α)) (get : α → β)
    (name : GoString) (kvs : List (GoString × JSON)) (acc : α × DState)
    (hfields : ∀ f ∈ fields, f.1 = name ∨ ∀ v cur st, get (f.2 v cur st).1 = get cur)
    (hself : equalFold name name = true)
    (h : ∀ kv ∈ kvs, equalFold name kv.1 = false) :
    get (kvs.foldl (storeMember fields) acc).1 = get acc.1 := by
  induction kvs generalizing acc with
  | nil => rfl
  | cons kv rest ih =>
    simp only [List.foldl_cons]
    rw [ih _ (fun x hx => h x (List.mem_cons_of_mem _ hx))]
    exact storeMember_frame fields get name acc kv hfields hself (h kv (List.mem_cons_self _ _))

/-- The value a string member leaves in its field: after the members `pre`, the member
`(name, str s)` and the members `post`, none of which matches `name`, a decoding that
did not stop has `s` in the field. -/
theorem foldl_storeMember_string {α : Type} (fields : List (GoString × Decoder α))
    (get : α → GoString) (name s : GoString) (dec : Decoder α)
    (pre post : List (GoString × JSON)) (acc : α × DState)
    (hfields : ∀ f ∈ fields, f.1 = name ∨ ∀ v cur st, get (f.2 v cur st).1 = get cur)
    (hself : equalFold name name = true)
    (hfind : findField fields name = some dec)
    (hdec : ∀ cur st, get (dec (.str s) cur st).1 = s)
    (hpost : ∀ kv ∈ post, equalFold name kv.1 = false)
    (hok : ((pre ++ (name, .str s) :: post).foldl (storeMember fields) acc).2.failed = none) :
    get ((pre ++ (name, .str s) :: post).foldl (storeMember fields) acc).1 = s := by
  rw [List.foldl_append, List.foldl_cons] at hok ⊢
  rw [foldl_storeMember_frame fields get name post _ hfields hself hpost]
  generalize pre.foldl (storeMember fields) acc = mid at hok ⊢
  cases hm : mid.2.failed with
  | some e =>
    have hmid : mid.2.failed.isSome = true := by simp [hm]
    have h1 : storeMember fields mid (name, .str s) = mid := by simp [storeMember, hmid]
    rw [h1, foldl_storeMember_failed fields post mid hmid, hm] at hok
    cases hok
  | none =>
    have h1 : storeMember fields mid (name, .str s) = dec (.str s) mid.1 mid.2 := by
      simp [storeMember, hm, hfind]
    rw [h1]
    exact hdec _ _

theorem err_none_failed (st : DState) (h : st.err = none) : st.failed = none := by
  unfold DState.err at h
  cases hf : st.failed with
  | none => rfl
  | some e => simp [hf] at h

/-- C6: `GetIssue(k)` on a transport that succeeds with a body read in full, where the
body is an object that is no `JiraError` with content, decodes as an `Issue` without
error, and has the string members `"key"` (equal to the requested key `k`), `"id"` and
`"self"`, each the last member to match its field: the call returns a nil error and
an `Issue` whose `Key` is `k` (so non-empty when `k` is) and whose `Id` and `Self` are
the body's `"id"` and `"self"`. -/
theorem getIssue_existing_issue (lib : Lib) (jc : Client) (k i s : GoString) (request : Request)
    (kvs preK postK preI postI preS postS : List (GoString × JSON))
    (hb : buildRequest lib jc (lit "GET") (lit "issue/" ++ k) none = .ok request)
    (hdo : jc.client request = .ok ⟨.valid (.obj kvs), none⟩)
    (hJ : (toJiraError (.valid (.obj kvs))).1 = false)
    (hdec : (unmarshal (decodeIssue lib) (.valid (.obj kvs)) Issue.zero).1 = none)
    (hkey : kvs = preK ++ (lit "key", .str k) :: postK)
    (hkeyLast : ∀ kv ∈ postK, equalFold (lit "key") kv.1 = false)
    (hid : kvs = preI ++ (lit "id", .str i) :: postI)
    (hidLast : ∀ kv ∈ postI, equalFold (lit "id") kv.1 = false)
    (hself : kvs = preS ++ (lit "self", .str s) :: postS)
    (hselfLast : ∀ kv ∈ postS, equalFold (lit "self") kv.1 = false) :
    ∃ issue, GetIssue lib jc k = .returns issue none ∧
      issue.Key = k ∧ issue.Id = i ∧ issue.Self = s ∧ (k ≠ [] → issue.Key ≠ []) := by
  have hG : GetIssue lib jc k =
      .returns (unmarshal (decodeIssue lib) (.valid (.obj kvs)) Issue.zero).2 none := by
    simp only [GetIssue_eq, hb, hdo, DoResult.err, DoResult.response]
    exact interpret_decode_ok (decodeIssue lib) Issue.zero _ hJ hdec
  have hfail : (kvs.foldl (storeMember (Issue.fields lib)) (Issue.zero, DState.init)).2.failed
      = none := err_none_failed _ hdec
  have hval : (unmarshal (decodeIssue lib) (.valid (.obj kvs)) Issue.zero).2
      = (kvs.foldl (storeMember (Issue.fields lib)) (Issue.zero, DState.init)).1 := rfl
  refine ⟨_, hG, ?_, ?_, ?_, ?_⟩
  · rw [hval]
    rw [hkey] at hfail ⊢
    exact foldl_storeMember_string (Issue.fields lib) (fun x => x.Key) (lit "key") k _ preK postK _
      (Issue_fields_frame_key lib) (by decide) rfl (fun _ _ => rfl) hkeyLast hfail
  · rw [hval]
    rw [hid] at hfail ⊢
    exact foldl_storeMember_string (Issue.fields lib) (fun x => x.Id) (lit "id") i _ preI postI _
      (Issue_fields_frame_id lib) (by decide) rfl (fun _ _ => rfl) hidLast hfail
  · rw [hval]
    rw [hself] at hfail ⊢
    exact foldl_storeMember_string (Issue.fields lib) (fun x => x.Self) (lit "self") s _ preS
      postS _ (Issue_fields_frame_self lib) (by decide) rfl (fun _ _ => rfl) hselfLast hfail
  · intro hk
    rw [hval]
    rw [hkey] at hfail ⊢
    rw [show ((preK ++ (lit "key", JSON.str k) :: postK).foldl (storeMember (Issue.fields lib))
      (Issue.zero, DState.init)).1.Key = k from
      foldl_storeMember_string (Issue.fields lib) (fun x => x.Key) (lit "key") k _ preK postK _
        (Issue_fields_frame_key lib) (by decide) rfl (fun _ _ => rfl) hkeyLast hfail]
    exact hk

theorem getIssue_existing_issue_witness :
    ∃ issue, GetIssue exampleLib (clientReturning issueBody) (lit "PROJECT-1") = .returns issue none ∧
      issue.Key = lit "PROJECT-1" ∧ issue.Id = lit "10000" ∧
      issue.Self = lit "https://jira.example.org/10000" ∧
      (lit "PROJECT-1" ≠ [] → issue.Key ≠ []) :=
  getIssue_existing_issue exampleLib (clientReturning issueBody) (lit "PROJECT-1") (lit "10000")
    (lit "https://jira.example.org/10000") _ _
    [(lit "id", .str (lit "10000"))] [(lit "self", .str (lit "https://jira.example.org/10000"))]
    [] [(lit "key", .str (lit "PROJECT-1")), (lit "self", .str (lit "https://jira.example.org/10000"))]
    [(lit "id", .str (lit "10000")), (lit "key", .str (lit "PROJECT-1"))] []
    rfl rfl (by decide) (by decide) rfl (by decide) rfl (by decide) rfl (by decide)

theorem interpret_returns {α : Type} (dec : Decoder α) (zero : α) (response : Response)
    (v : α) (err : Option GoError) (h : interpret dec zero response = .returns v err) :
    (err ≠ none ∧ v = zero) ∨
    (err = none ∧ (toJiraError response.body).1 = false ∧ response.readErr = none ∧
      unmarshal dec response.body zero = (none, v)) := by
  rw [interpret_eq] at h
  by_cases hj : (toJiraError response.body).1 = true
  · rw [if_pos hj] at h
    injection h with h1 h2
    exact Or.inl ⟨by rw [← h2]; simp, h1.symm⟩
  · rw [if_neg hj] at h
    cases hr : response.readErr with
    | some e =>
      rw [hr] at h
      injection h with h1 h2
      exact Or.inl ⟨by rw [← h2]; simp, h1.symm⟩
    | none =>
      rw [hr] at h
      cases hu : unmarshal dec response.body zero with
      | mk e x =>
        rw [hu] at h
        cases e with
        | some e =>
          injection h with h1 h2
          exact Or.inl ⟨by rw [← h2]; simp, h1.symm⟩
        | none =>
          injection h with h1 h2
          simp only at h1
          exact Or.inr ⟨h2.symm, by simpa using hj, rfl, by rw [h1]⟩

theorem interpret_never_panics {α : Type} (dec : Decoder α) (zero : α) (response : Response) :
    interpret dec zero response ≠ .panics := by
  rw [interpret_eq]
  by_cases hj : (toJiraError response.body).1 = true
  · rw [if_pos hj]
    exact fun h => Outcome.noConfusion h
  · rw [if_neg hj]
    cases response.readErr with
    | some e => exact fun h => Outcome.noConfusion h
    | none =>
      cases (unmarshal dec response.body zero).1 with
      | some e => exact fun h => Outcome.noConfusion h
      | none => exact fun h => Outcome.noConfusion h

/-- What every `return` of the three operations pairs: a non-nil error with the zero
value, or a nil error with the success-shape decode of a body that is no `JiraError`
with content and was read without error. -/
theorem operations_returns (lib : Lib) (jc : Client) :
    (∀ key v err, GetIssue lib jc key = .returns v err →
      (err ≠ none ∧ v = Issue.zero) ∨
      (err = none ∧ ∃ request body, jc.client request = .ok ⟨body, none⟩ ∧
        (toJiraError body).1 = false ∧ unmarshal (decodeIssue lib) body Issue.zero = (none, v))) ∧
    (∀ jql v err, SearchIssue lib jc jql = .returns v err →
      (err ≠ none ∧ v = IssueList.zero) ∨
      (err = none ∧ ∃ request body, jc.client request = .ok ⟨body, none⟩ ∧
        (toJiraError body).1 = false ∧
        unmarshal (decodeIssueList lib) body IssueList.zero = (none, v))) ∧
    (∀ issue v err, CreateIssue lib jc issue = .returns v err →
      (err ≠ none ∧ v = Issue.zero) ∨
      (err = none ∧ ∃ request body, (jc.client request).response = some ⟨body, none⟩ ∧
        (toJiraError body).1 = false ∧ unmarshal (decodeIssue lib) body Issue.zero = (none, v))) := by
  refine ⟨?_, ?_, ?_⟩
  · intro key v err h
    rw [GetIssue_eq] at h
    cases hb : buildRequest lib jc (lit "GET") (lit "issue/" ++ key) none with
    | error e =>
      rw [hb] at h
      injection h with h1 h2
      exact Or.inl ⟨by rw [← h2]; simp, h1.symm⟩
    | ok request =>
      rw [hb] at h
      cases hd : jc.client request with
      | fail r e =>
        simp only [hd, DoResult.err] at h
        injection h with h1 h2
        exact Or.inl ⟨by rw [← h2]; simp, h1.symm⟩
      | ok response =>
        simp only [hd, DoResult.err, DoResult.response] at h
        rcases interpret_returns _ _ _ _ _ h with h1 | ⟨h1, h2, h3, h4⟩
        · exact Or.inl h1
        · refine Or.inr ⟨h1, request, response.body, ?_, h2, h4⟩
          rw [hd]
          cases response
          simp only at h3
          rw [h3]
  · intro jql v err h
    rw [SearchIssue_eq] at h
    cases hb : buildRequest lib jc (lit "GET") (searchPath jql) none with
    | error e =>
      rw [hb] at h
      injection h with h1 h2
      exact Or.inl ⟨by rw [← h2]; simp, h1.symm⟩
    | ok request =>
      rw [hb] at h
      cases hd : jc.client request with
      | fail r e =>
        simp only [hd, DoResult.err] at h
        injection h with h1 h2
        exact Or.inl ⟨by rw [← h2]; simp, h1.symm⟩
      | ok response =>
        simp only [hd, DoResult.err, DoResult.response] at h
        rcases interpret_returns _ _ _ _ _ h with h1 | ⟨h1, h2, h3, h4⟩
        · exact Or.inl h1
        · refine Or.inr ⟨h1, request, response.body, ?_, h2, h4⟩
          rw [hd]
          cases response
          simp only at h3
          rw [h3]
  · intro issue v err h
    rw [CreateIssue_eq] at h
    cases hm : marshalIssue lib issue with
    | error e =>
      rw [hm] at h
      injection h with h1 h2
      exact Or.inl ⟨by rw [← h2]; simp, h1.symm⟩
    | ok data =>
      rw [hm] at h
      dsimp only at h
      cases hb : buildRequest lib jc (lit "POST") (lit "issue") (some data) with
      | error e =>
        rw [hb] at h
        injection h with h1 h2
        exact Or.inl ⟨by rw [← h2]; simp, h1.symm⟩
      | ok request =>
        rw [hb] at h
        cases hd : (jc.client request).response with
        | none =>
          simp only [hd] at h
          cases h
        | some response =>
          simp only [hd] at h
          rcases interpret_returns _ _ _ _ _ h with h1 | ⟨h1, h2, h3, h4⟩
          · exact Or.inl h1
          · refine Or.inr ⟨h1, request, response.body, ?_, h2, h4⟩
            rw [hd]
            cases response
            simp only at h3
            rw [h3]

end Jirarest
